import Mathlib

/-!
Verification of the markdown-slide-generator deck pipeline.

This file gives a shallow embedding of the failure-recovery core of the
repository: the deck-plan validator/repairer (`src/ai_planner.py`), the
fallback deck synthesizer, the per-slide image acquisition engine with its
retry/prompt-degradation ladder, and the procedural shape-fallback renderer
(`src/image_generator.py`).  Dynamic Python values are embedded as a JSON
value type `JVal`; Python dicts become association lists preserving
insertion order; exceptions become `Except PyErr`; the filesystem and the
external image-synthesis capability become explicit state threaded through
the functions.
-/

set_option maxHeartbeats 1000000
set_option linter.unusedVariables false

namespace SlideGen

/-- A JSON-like dynamic value, the embedding of the Python values that flow
through the planner (result of `json.loads` and hand-built dicts). -/
inductive JVal where
  | null
  | bool (b : Bool)
  | int (n : Int)
  | str (s : String)
  | arr (items : List JVal)
  | obj (fields : List (String × JVal))

/-- Python dictionaries, embedded as insertion-ordered association lists. -/
abbrev Dict := List (String × JVal)

/-- Python exceptions that the embedded code can raise. -/
inductive PyErr where
  | typeError
  | attributeError
  | fileExistsError
deriving DecidableEq

/-- Lookup in an association list (Python `d[k]` / `d.get(k)`): first match. -/
def alGet {α : Type} : List (String × α) → String → Option α
  | [], _ => none
  | (k, v) :: rest, key => if k = key then some v else alGet rest key

/-- Assignment `d[k] = v` on a Python dict: an existing key keeps its
position, a new key is appended at the end of the insertion order. -/
def alSet {α : Type} : List (String × α) → String → α → List (String × α)
  | [], key, v => [(key, v)]
  | (k, w) :: rest, key, v =>
    if k = key then (key, v) :: rest else (k, w) :: alSet rest key v

/-- Python `d.setdefault(k, v)`: insert `v` at the end only if `k` is absent. -/
def alSetD {α : Type} (d : List (String × α)) (key : String) (v : α) :
    List (String × α) :=
  match alGet d key with
  | some _ => d
  | none => d ++ [(key, v)]

/-- Python truthiness of a value (`not deck["slides"]` tests). -/
def JVal.truthy : JVal → Bool
  | .null => false
  | .bool b => b
  | .int n => n != 0
  | .str s => !s.data.isEmpty
  | .arr l => !l.isEmpty
  | .obj l => !l.isEmpty

/-- Is `needle` a contiguous substring of `hay` (Python `needle in s`)? -/
def containsSub (hay needle : List Char) : Bool :=
  if needle.isPrefixOf hay then true
  else
    match hay with
    | [] => false
    | _ :: t => containsSub t needle

/-- ASCII model of Python `str.lower()`. -/
def lowerStr (s : String) : String := String.mk (s.data.map Char.toLower)

/-- Python `needle in v` for an arbitrary value `v`: substring test on
strings, membership on lists (a string needle only equals a string
element), key membership on dicts, `TypeError` otherwise. -/
def pyInStr (needle : String) : JVal → Except PyErr Bool
  | .str s => .ok (containsSub s.data needle.data)
  | .arr l =>
    .ok (l.any fun v =>
      match v with
      | .str s => s = needle
      | _ => false)
  | .obj l => .ok (l.any fun kv => kv.1 = needle)
  | _ => .error .typeError

/-- Python `v.lower()`: only defined on strings, `AttributeError` otherwise. -/
def pyLower : JVal → Except PyErr String
  | .str s => .ok (lowerStr s)
  | _ => .error .attributeError

/-- The recognized layout values (`_VALID_LAYOUTS` in `src/ai_planner.py`). -/
def VALID_LAYOUTS : List String :=
  ["TITLE", "TITLE_LEFT_IMAGE_RIGHT", "IMAGE_FULL_TEXT_BOTTOM"]

/-- The outcome of the membership test `slide.get("layout") in
_VALID_LAYOUTS` on a hashable value: a missing key gives `None`, and a
non-string hashable value never equals a member of the set of strings. -/
def layoutIsValid : Option JVal → Bool
  | some (.str s) => VALID_LAYOUTS.contains s
  | _ => false

/-- Python hashability of a `layout` value: `_VALID_LAYOUTS` is a set, so
the membership test `slide.get("layout") not in _VALID_LAYOUTS` hashes the
value first — a list or dict raises `TypeError: unhashable type`, while
`None` (missing key), booleans, numbers and strings are hashable and
simply compare unequal unless they are one of the three member strings. -/
def layoutHashable : Option JVal → Bool
  | some (.arr _) => false
  | some (.obj _) => false
  | _ => true

/-- The default image prompt inserted by the validator for a slide that
lacks one (`src/ai_planner.py`, `_validate_and_fix`). -/
def DEFAULT_IMAGE_PROMPT : String :=
  "A clean flat illustration of a modern business office, minimal style, white background, no text, no watermark"

/-- The default theme dict inserted when `theme` is missing. -/
def defaultTheme : JVal :=
  .obj [("primary_color", .str "#2B579A"),
        ("secondary_color", .str "#4472C4"),
        ("font", .str "Arial")]

/-- The five `setdefault` calls of the fill loop in `_validate_and_fix`. -/
def fillDefaults (sd : Dict) : Dict :=
  alSetD (alSetD (alSetD (alSetD (alSetD sd
    "title" (.str ""))
    "message" (.str ""))
    "body" (.str ""))
    "bullets" (.arr []))
    "image_prompt" (.str DEFAULT_IMAGE_PROMPT)

/-- The body of one iteration of the fill loop in `_validate_and_fix` on a
slide dict: `setdefault` the five content keys, then coerce an unrecognized
or missing layout to the default. -/
def fixDict (sd : Dict) : Dict :=
  if layoutIsValid (alGet (fillDefaults sd) "layout") then fillDefaults sd
  else alSet (fillDefaults sd) "layout" (.str "TITLE_LEFT_IMAGE_RIGHT")

/-- One iteration of the fill loop in `_validate_and_fix`.  Iterating a
non-dict element raises `AttributeError` at the first `setdefault` call,
and an unhashable `layout` value (list or dict) raises `TypeError` at the
set-membership test `slide.get("layout") not in _VALID_LAYOUTS`. -/
def fixSlide : JVal → Except PyErr JVal
  | .obj sd =>
    if layoutHashable (alGet (fillDefaults sd) "layout") then
      .ok (.obj (fixDict sd))
    else .error .typeError
  | _ => .error .attributeError

/-- `mapE f l`: effectful map over `Except`, the embedding of running a
Python `for` loop body over each element, stopping at the first exception. -/
def mapE (f : JVal → Except PyErr JVal) : List JVal → Except PyErr (List JVal)
  | [] => .ok []
  | x :: rest =>
    match f x with
    | .error e => .error e
    | .ok y =>
      match mapE f rest with
      | .error e => .error e
      | .ok ys => .ok (y :: ys)

/-- The per-slide test of the `has_effect_slide` scan:
`"効果" in s.get("title", "") or "effect" in s.get("title", "").lower()`,
with Python short-circuiting and Python type errors. -/
def titleEffectCheck : JVal → Except PyErr Bool
  | .obj sd =>
    let title := (alGet sd "title").getD (.str "")
    match pyInStr "効果" title with
    | .error e => .error e
    | .ok true => .ok true
    | .ok false =>
      match pyLower title with
      | .error e => .error e
      | .ok low => .ok (containsSub low.data "effect".data)
  | _ => .error .attributeError

/-- Python `any(...)` over the generator of per-slide checks: lazy, stops at
the first `True`, propagates the first exception. -/
def anyEffect : List JVal → Except PyErr Bool
  | [] => .ok false
  | s :: rest =>
    match titleEffectCheck s with
    | .error e => .error e
    | .ok true => .ok true
    | .ok false => anyEffect rest

/-- The synthesized "期待効果" slide of `_make_effect_slide`. -/
def effectSlide : JVal :=
  .obj [("title", .str "期待効果"),
        ("message", .str "DX推進により業務品質と効率を同時に高める"),
        ("body", .str "本施策の導入により、税務申告前チェックの自動化で転記ミスを大幅に削減し、進捗管理のデジタル化によって属人的な業務フローを標準化します。結果として顧客対応スピードが向上し、繁忙期の残業削減にも寄与します。"),
        ("bullets", .arr [.str "申告前チェック自動化によるミス削減",
                          .str "進捗管理のリアルタイム可視化",
                          .str "属人化解消と業務標準化の実現",
                          .str "繁忙期の工数20〜30%削減を目標"]),
        ("image_prompt", .str "A clean flat illustration showing a rising bar chart and efficiency icons such as a clock, checkmark, and gears, representing business productivity improvement, minimal style, white background, no text, no watermark, professional business illustration"),
        ("layout", .str "TITLE_LEFT_IMAGE_RIGHT")]

/-- The complete no-AI fallback deck of `_create_fallback_deck`
(`src/ai_planner.py`).  The `source_text` argument of the Python function is
unused, so the deck is a constant. -/
def fallbackDeck : Dict :=
  [("deck_title", .str "提案資料"),
   ("theme", defaultTheme),
   ("slides", .arr
     [.obj [("title", .str "提案資料"),
            ("message", .str "業務改善に向けた提案をご紹介します"),
            ("body", .str ""),
            ("bullets", .arr []),
            ("image_prompt", .str "A clean flat illustration of a professional business presentation setting, minimal, white background, no text"),
            ("layout", .str "TITLE")],
      .obj [("title", .str "現状の課題"),
            ("message", .str "手作業中心の業務フローが品質リスクを高めている"),
            ("body", .str "現在の税務業務では、仕訳の転記や証憑確認などの多くの工程が手作業で行われており、担当者ごとにやり方が異なる属人的なフローが定着しています。この結果、繁忙期にはミスが増加し、引き継ぎも困難な状況が続いています。"),
            ("bullets", .arr [.str "手作業による転記・照合が多い",
                              .str "業務フローが担当者に依存",
                              .str "ミスの検出が事後的になりがち"]),
            ("image_prompt", .str "A flat illustration of an overwhelmed office worker surrounded by stacks of paper documents and spreadsheets, minimal style, white background, no text, no watermark"),
            ("layout", .str "TITLE_LEFT_IMAGE_RIGHT")],
      .obj [("title", .str "解決策"),
            ("message", .str "AI・自動化・クラウドの三本柱で業務を変革する"),
            ("body", .str "AI-OCRによる証憑の自動読取や、クラウド会計ソフトとの連携による仕訳自動化を導入し、申告前チェックをルールベース＋AIで二重に実施します。これにより転記ミスを未然に防ぎ、業務の標準化と効率化を同時に実現します。"),
            ("bullets", .arr [.str "AI-OCRで証憑を自動読取・データ化",
                              .str "クラウド連携による仕訳の自動生成",
                              .str "ルールベース＋AIの申告前ダブルチェック"]),
            ("image_prompt", .str "A flat illustration of a digital transformation concept with cloud computing icons, AI brain symbol, and automated workflow arrows, minimal style, white background, no text, no watermark"),
            ("layout", .str "TITLE_LEFT_IMAGE_RIGHT")],
      effectSlide])]

/-- Python `for slide in deck["slides"]`: lists yield their elements,
strings yield their one-character substrings, dicts yield their keys, and
any other value raises `TypeError`. -/
def iterSlides : JVal → Except PyErr (List JVal)
  | .arr l => .ok l
  | .str s => .ok (s.data.map fun c => .str (String.mk [c]))
  | .obj l => .ok (l.map fun kv => .str kv.1)
  | _ => .error .typeError

/-- `if k not in d: d[k] = v`, the guard-then-assign pattern used for the
top-level `deck_title` and `theme` keys. -/
def ensureKey (d : Dict) (k : String) (v : JVal) : Dict :=
  if (alGet d k).isSome then d else alSet d k v

/-- The part of `_validate_and_fix` after the `deck_title` / `theme`
inserts, acting on the already-prepared deck: if `slides` is missing or
falsy return the fallback deck; otherwise run the fill loop over the
slides, append the synthesized effect slide when no title matches the
outcome keywords, and return the repaired deck. -/
def validateCore (deck2 : Dict) : Except PyErr Dict :=
  match alGet deck2 "slides" with
  | none => .ok fallbackDeck
  | some sv =>
    if sv.truthy = false then .ok fallbackDeck
    else
      match iterSlides sv with
      | .error e => .error e
      | .ok slides =>
        match mapE fixSlide slides with
        | .error e => .error e
        | .ok fixed =>
          match anyEffect fixed with
          | .error e => .error e
          | .ok b =>
            .ok (alSet deck2 "slides"
              (.arr (if b then fixed else fixed ++ [effectSlide])))

/-- `_validate_and_fix(deck, source_text)` from `src/ai_planner.py`:
insert a missing `deck_title` and `theme`, then repair the slides. -/
def validateAndFix (deck : Dict) (sourceText : String) : Except PyErr Dict :=
  validateCore
    (ensureKey (ensureKey deck "deck_title" (.str "Presentation")) "theme"
      defaultTheme)

/-- A slide dict in canonical repaired form: all six schema keys present and
a recognized layout.  This is the per-slide half of the spec's
"structurally complete object". -/
def SlideComplete (s : JVal) : Prop :=
  ∃ sd, s = .obj sd ∧
    (alGet sd "title").isSome ∧ (alGet sd "message").isSome ∧
    (alGet sd "body").isSome ∧ (alGet sd "bullets").isSome ∧
    (alGet sd "image_prompt").isSome ∧
    layoutIsValid (alGet sd "layout") = true

/-- A deck in the shape the validator promises to its caller: `deck_title`
and `theme` present and a non-empty slides list of complete slides. -/
def DeckComplete (d : Dict) : Prop :=
  (alGet d "deck_title").isSome ∧ (alGet d "theme").isSome ∧
    ∃ out, alGet d "slides" = some (.arr out) ∧ out ≠ [] ∧
      ∀ s ∈ out, SlideComplete s

/-- The exact fixed-point shape of a validator output: both top-level keys
present, a non-empty slides list on which the fill loop is the identity,
and a title already matching the outcome-keyword scan. -/
def Validated (d : Dict) : Prop :=
  (alGet d "deck_title").isSome ∧ (alGet d "theme").isSome ∧
    ∃ out, alGet d "slides" = some (.arr out) ∧ out ≠ [] ∧
      (∀ s ∈ out, fixSlide s = .ok s) ∧ anyEffect out = .ok true

/-- A slide entry on which the validator body cannot raise: a dict whose
`title`, when present, is a string, and whose `layout`, when present, is a
hashable value (not a list or dict). -/
def GoodSlide (s : JVal) : Prop :=
  ∃ sd, s = .obj sd ∧ (∀ v, alGet sd "title" = some v → ∃ t, v = .str t) ∧
    layoutHashable (alGet sd "layout") = true

/-! ### Retry prompt construction (`_build_retry_prompts`) -/

/-- The ASCII whitespace class of the regex `\s` used in
`re.sub(r"\s{2,}", " ", shortened)`. -/
def isWs (c : Char) : Bool :=
  c = ' ' || c = '\t' || c = '\n' || c = '\r' || c = '\x0b' || c = '\x0c'

/-- Python `s.replace(pat, "")` on character lists: delete every
non-overlapping occurrence of `pat`, scanning left to right.  Structured
with a fuel parameter (instantiated with the list length, which every
recursive call stays below) so that the recursion is structural; the guard
on `pat` being non-empty only serves totality — all patterns used by the
source are non-empty words. -/
def removeOccAux (pat : List Char) : Nat → List Char → List Char
  | 0, s => s
  | _ + 1, [] => []
  | fuel + 1, c :: rest =>
    if pat ≠ [] ∧ pat.isPrefixOf (c :: rest) then
      removeOccAux pat fuel ((c :: rest).drop pat.length)
    else c :: removeOccAux pat fuel rest

/-- `removeOccAux` at adequate fuel. -/
def removeOcc (pat : List Char) (s : List Char) : List Char :=
  removeOccAux pat s.length s

/-- `s.replace(pat, "")` lifted to strings. -/
def pyReplaceDel (s : String) (pat : String) : String :=
  String.mk (removeOcc pat.data s.data)

/-- ASCII model of Python `str.capitalize()`: first character uppercased,
the rest lowercased. -/
def pyCapitalize (s : String) : String :=
  match s.data with
  | [] => ""
  | c :: rest => String.mk (c.toUpper :: rest.map Char.toLower)

/-- `re.sub(r"\s{2,}", " ", ·)` on character lists: every maximal run of
two or more whitespace characters becomes one space; an isolated whitespace
character is left as is.  Fueled like `removeOccAux` to keep the recursion
structural. -/
def collapseWsAux : Nat → List Char → List Char
  | 0, s => s
  | _ + 1, [] => []
  | fuel + 1, c :: rest =>
    if isWs c && (match rest with | d :: _ => isWs d | [] => false) then
      ' ' :: collapseWsAux fuel (rest.dropWhile isWs)
    else c :: collapseWsAux fuel rest

/-- `collapseWsAux` at adequate fuel. -/
def collapseWsRuns (s : List Char) : List Char :=
  collapseWsAux s.length s

/-- `re.sub(r"\s{2,}", " ", ·)` lifted to strings. -/
def reSubWs2 (s : String) : String := String.mk (collapseWsRuns s.data)

/-- Python `str.strip()` over the ASCII whitespace class. -/
def pyStrip (s : String) : String :=
  String.mk (((s.data.dropWhile isWs).reverse.dropWhile isWs).reverse)

/-- The fixed list of "heavy" adjectives stripped for retry attempt 2
(`src/image_generator.py`, `_build_retry_prompts`). -/
def HEAVY_ADJECTIVES : List String :=
  ["detailed", "highly detailed", "intricate", "elaborate",
   "photorealistic", "ultra-realistic", "hyper-realistic",
   "complex", "sophisticated"]

/-- The fixed ultra-safe prompt used as retry attempt 3. -/
def SAFE_PROMPT : String :=
  "A clean flat illustration for a business presentation, simple geometric shapes, professional color palette, minimal design, white background, no text, no watermark, no people, corporate style"

/-- The adjective-stripping loop of attempt 2: for each adjective, delete
its exact occurrences and then the occurrences of its capitalized form. -/
def stripAdjectives (s : String) : String :=
  HEAVY_ADJECTIVES.foldl
    (fun acc adj => pyReplaceDel (pyReplaceDel acc adj) (pyCapitalize adj)) s

/-- The two conditional safety suffixes of attempt 2: append
", minimal style" when `"minimal"` is absent (case-insensitively) and then
", no text" when `"no text"` is absent from the updated prompt. -/
def addSafetyMarkers (s : String) : String :=
  let s :=
    if containsSub (lowerStr s).data "minimal".data then s
    else s ++ ", minimal style"
  if containsSub (lowerStr s).data "no text".data then s
  else s ++ ", no text"

/-- `_build_retry_prompts(original_prompt)`: the three-rung prompt ladder. -/
def buildRetryPrompts (originalPrompt : String) : List String :=
  let shortened := stripAdjectives originalPrompt
  let shortened := pyStrip (reSubWs2 shortened)
  let shortened := addSafetyMarkers shortened
  [originalPrompt, shortened, SAFE_PROMPT]

/-- Case-insensitive occurrence removal, following the claim's words (each
adjective "removed case-insensitively") rather than the source; used only
to compare the claimed transformation with the implemented one. -/
def removeOccCIAux (pat : List Char) : Nat → List Char → List Char
  | 0, s => s
  | _ + 1, [] => []
  | fuel + 1, c :: rest =>
    if pat ≠ [] ∧
        (pat.map Char.toLower).isPrefixOf ((c :: rest).map Char.toLower) then
      removeOccCIAux pat fuel ((c :: rest).drop pat.length)
    else c :: removeOccCIAux pat fuel rest

/-- `removeOccCIAux` at adequate fuel. -/
def removeOccCI (pat : List Char) (s : List Char) : List Char :=
  removeOccCIAux pat s.length s

/-- The second retry prompt as the claim describes it: every heavy
adjective removed case-insensitively, whitespace collapsed and stripped,
and the two safety suffixes appended when absent. -/
def claimSecondPrompt (p : String) : String :=
  let s := HEAVY_ADJECTIVES.foldl
    (fun acc adj => String.mk (removeOccCI adj.data acc.data)) p
  addSafetyMarkers (pyStrip (reSubWs2 s))

/-- The second retry prompt as the amended claim describes it: each listed
adjective removed in its exact lowercase form and its capitalized form
(other casings are left in place), runs of two or more whitespace
characters collapsed to one space, the result stripped, and the safety
suffixes appended when their markers are absent case-insensitively. -/
def amendedSecondPrompt (p : String) : String :=
  addSafetyMarkers (pyStrip (reSubWs2 (stripAdjectives p)))

/-! ### Filesystem and image-synthesis capability model -/

/-- The filesystem state visible to the image engine: the set of existing
directories and a map from file path to file size in bytes. -/
structure FS where
  dirs : List String
  files : List (String × Nat)

/-- `os.path.getsize`-style lookup: `none` when the file does not exist. -/
def fsGet (fs : FS) (p : String) : Option Nat := alGet fs.files p

/-- Writing (or overwriting) a file of `n` bytes at path `p`. -/
def fsWrite (fs : FS) (p : String) (n : Nat) : FS :=
  { fs with files := alSet fs.files p n }

/-- `os.path.exists(p) and os.path.getsize(p) > 0`. -/
def fileNonEmpty (fs : FS) (p : String) : Bool :=
  match fsGet fs p with
  | some n => decide (0 < n)
  | none => false

/-- Outcome of one invocation of the external image-synthesis capability:
either it reports failure (exception or empty response, in which case the
source writes nothing), or it reports success having written a file of the
given size to the target path (`none` models a reported success that left
no file behind). -/
inductive SynthOutcome where
  | failure
  | success (written : Option Nat)

/-- The external image-synthesis capability as an oracle over the global
invocation counter, the prompt, and the aspect-ratio string. -/
abbrev SynthOracle := Nat → String → String → SynthOutcome

/-- One synthesis attempt: invoke the capability, apply its write (if any)
to the target path, and return its reported success flag. -/
def synthStep (oracle : SynthOracle) (c : Nat) (p aspect filepath : String)
    (fs : FS) : Bool × FS :=
  match oracle c p aspect with
  | .failure => (false, fs)
  | .success none => (true, fs)
  | .success (some n) => (true, fsWrite fs filepath n)

/-- The attempt loop of `_generate_with_retries`: walk the prompt ladder;
after a reported success, verify the file exists non-empty and only then
return success; otherwise move to the next rung.  Returns the success flag,
the final filesystem, and the new invocation counter. -/
def retryGo (oracle : SynthOracle) (aspect filepath : String) :
    List String → FS → Nat → Bool × FS × Nat
  | [], fs, c => (false, fs, c)
  | p :: rest, fs, c =>
    match synthStep oracle c p aspect filepath fs with
    | (false, fs1) => retryGo oracle aspect filepath rest fs1 (c + 1)
    | (true, fs1) =>
      if fileNonEmpty fs1 filepath then (true, fs1, c + 1)
      else retryGo oracle aspect filepath rest fs1 (c + 1)

/-- `_generate_with_retries`: run the attempt loop over the three prompts
built from the slide's original prompt. -/
def genWithRetries (oracle : SynthOracle) (prompt aspect filepath : String)
    (fs : FS) (c : Nat) : Bool × FS × Nat :=
  retryGo oracle aspect filepath (buildRetryPrompts prompt) fs c

/-- The prompt used on rung `j` of a prompt ladder. -/
def promptAt (ps : List String) (j : Nat) : String := (ps.get? j).getD ""

/-- The filesystem state after the first `k` attempts of the ladder (the
state evolution does not depend on the early-exit test, so it has this
closed form). -/
def ladderFS (oracle : SynthOracle) (aspect filepath : String)
    (ps : List String) (fs : FS) (c0 : Nat) : Nat → FS
  | 0 => fs
  | k + 1 =>
    (synthStep oracle (c0 + k) (promptAt ps k) aspect filepath
      (ladderFS oracle aspect filepath ps fs c0 k)).2

/-- Did the capability report success on attempt `k`? -/
def ladderReported (oracle : SynthOracle) (aspect filepath : String)
    (ps : List String) (fs : FS) (c0 : Nat) (k : Nat) : Bool :=
  (synthStep oracle (c0 + k) (promptAt ps k) aspect filepath
    (ladderFS oracle aspect filepath ps fs c0 k)).1

/-- Attempt `k` counts as successful: the capability reported success AND
the target file exists non-empty afterwards. -/
def ladderOk (oracle : SynthOracle) (aspect filepath : String)
    (ps : List String) (fs : FS) (c0 : Nat) (k : Nat) : Bool :=
  ladderReported oracle aspect filepath ps fs c0 k &&
    fileNonEmpty (ladderFS oracle aspect filepath ps fs c0 (k + 1)) filepath

/-! ### Decimal file names -/

/-- The decimal digits of `n`, most significant first, with a structural
fuel parameter (any fuel at least `n` gives the digits of `n`). -/
def natDigitsAux : Nat → Nat → List Nat
  | 0, n => [n]
  | fuel + 1, n => if n < 10 then [n] else natDigitsAux fuel (n / 10) ++ [n % 10]

/-- The decimal digits of `n`, most significant first. -/
def natDigits (n : Nat) : List Nat := natDigitsAux n n

/-- Python `str(n)` for a natural number. -/
def natDecimal (n : Nat) : String :=
  String.mk ((natDigits n).map Nat.digitChar)

/-- `os.path.join(output_dir, f"slide_{i + 1}.png")` for slide index `i`
(0-based), i.e. the deterministic 1-based asset name. -/
def slidePath (dir : String) (i : Nat) : String :=
  dir ++ "/slide_" ++ natDecimal (i + 1) ++ ".png"

/-! ### Procedural shape-fallback renderer -/

/-- A typed slide record as consumed by the image engine; each field is the
value of the corresponding slide-dict key, with the engine's `.get`
defaults applied. -/
structure PSlide where
  title : String
  message : String
  body : String
  bullets : List String
  image_prompt : String
  layout : String

/-- An RGB color. -/
abbrev Color := Nat × Nat × Nat

def COLOR_primary : Color := (43, 87, 154)

def COLOR_secondary : Color := (68, 114, 196)

def COLOR_accent : Color := (91, 155, 213)

def COLOR_light : Color := (180, 210, 240)

def COLOR_bgCard : Color := (255, 255, 255)

def COLOR_text : Color := (60, 60, 70)

def COLOR_textLight : Color := (120, 130, 150)

def COLOR_canvas : Color := (245, 247, 252)

def COLOR_white : Color := (255, 255, 255)

/-- The font handle used for drawing: Arial at a point size when the
truetype load succeeded, the Pillow built-in default font otherwise. -/
inductive Font where
  | arial (size : Nat)
  | loadedDefault
deriving DecidableEq

/-- A Pillow drawing primitive with its coordinates and colors. -/
inductive Shape where
  | rect (x0 y0 x1 y1 : Int) (fill : Color)
  | roundedRect (x0 y0 x1 y1 radius : Int) (fill : Option Color)
      (outline : Option Color) (lineW : Nat)
  | ellipse (x0 y0 x1 y1 : Int) (fill : Option Color)
      (outline : Option Color) (lineW : Nat)
  | polygon (pts : List (Int × Int)) (fill : Option Color)
      (outline : Option Color) (lineW : Nat)
  | line (x0 y0 x1 y1 : Int) (stroke : Color) (lineW : Nat)
  | text (x y : Int) (content : String) (fill : Color) (font : Font)

/-- The rendered fallback image: canvas size, background color, and the
sequence of drawing primitives in draw order. -/
structure Rendered where
  width : Nat
  height : Nat
  background : Color
  shapes : List Shape

/-- The ambient environment of the renderer, holding the features of the
run that are outside the embedding but fixed within a run: whether
`arial.ttf` loaded, the two float-valued coordinate computations
(`int((h - 200) * (0.3 + 0.7 * (i + 1) / n))` for chart bar heights and the
`math.cos`/`math.sin` satellite placement of the problem layout — IEEE-754
arithmetic is modeled as an abstract but fixed function), and the PNG
encoder's payload size. -/
structure EnvModel where
  fontsLoaded : Bool
  chartBarH : Int → Nat → Nat → Int
  problemXY : Int → Int → Int → Int → Int × Int
  pngPayload : Rendered → Nat

def fontLargeOf (env : EnvModel) : Font :=
  if env.fontsLoaded then .arial 24 else .loadedDefault

def fontSmallOf (env : EnvModel) : Font :=
  if env.fontsLoaded then .arial 16 else fontLargeOf env

/-- The icon-circle color cycle of the card layout. -/
def iconColor (i : Nat) : Color :=
  match i % 4 with
  | 0 => COLOR_primary
  | 1 => COLOR_secondary
  | 2 => COLOR_accent
  | _ => COLOR_light

/-- Python slicing `s[:k]` by code points. -/
def takeChars (k : Nat) (s : String) : String := String.mk (s.data.take k)

/-- `_draw_card_layout`: one rounded card per bullet (up to 4), each with a
colored icon circle, an inner white square, and truncated bullet text. -/
def drawCardLayout (w h : Int) (bullets : List String) (fontL fontS : Font) :
    List Shape :=
  let n := min bullets.length 4
  let cardW := Int.fdiv (w - 80 - ((n : Int) - 1) * 20) (n : Int)
  let cardH := h - 120
  let y : Int := 60
  (List.range n).flatMap fun i =>
    let x := 40 + (i : Int) * (cardW + 20)
    let cx := x + Int.fdiv cardW 2
    let cy := y + 50
    let r : Int := 28
    [Shape.roundedRect x y (x + cardW) (y + cardH) 12 (some COLOR_bgCard)
        (some COLOR_light) 2,
     Shape.ellipse (cx - r) (cy - r) (cx + r) (cy + r) (some (iconColor i))
        none 0,
     Shape.rect (cx - 10) (cy - 10) (cx + 10) (cy + 10) COLOR_white,
     Shape.text (x + 15) (cy + 45)
        (if i < bullets.length then takeChars 20 (bullets.getD i "") else "")
        COLOR_text fontS]

/-- `_draw_chart_layout`: a rising bar chart with an arrow accent on the
final bar, a baseline, and a label. -/
def drawChartLayout (env : EnvModel) (w h : Int) (bullets : List String)
    (fontL fontS : Font) : List Shape :=
  let n := max bullets.length 3
  let barW := Int.fdiv (w - 160) ((n : Int) + 1)
  let baseY := h - 80
  ((List.range n).flatMap fun i =>
    let barH := env.chartBarH h i n
    let x := 80 + (i : Int) * (barW + 15)
    let y := baseY - barH
    [Shape.roundedRect x y (x + barW - 10) baseY 8
       (some (if i % 2 = 0 then COLOR_secondary else COLOR_accent)) none 0]
    ++ (if i = n - 1 then
          let ax := x + Int.fdiv barW 2
          let ay := y - 20
          [Shape.polygon [(ax - 12, ay + 15), (ax + 12, ay + 15), (ax, ay - 5)]
             (some COLOR_primary) none 0]
        else []))
  ++ [Shape.line 60 baseY (w - 40) baseY COLOR_textLight 2,
      Shape.text (Int.fdiv w 2 - 60) 25 "Expected Impact" COLOR_text fontL]

/-- `_draw_problem_layout`: centered warning triangle with exclamation
mark, satellite circles (one per bullet, up to 5), and a label. -/
def drawProblemLayout (env : EnvModel) (w h : Int) (bullets : List String)
    (fontL : Font) : List Shape :=
  let cx := Int.fdiv w 2
  let cy := Int.fdiv h 2
  let size := Int.fdiv (min w h) 3
  [Shape.polygon
     [(cx, cy - Int.fdiv size 2), (cx - Int.fdiv size 2, cy + Int.fdiv size 2),
      (cx + Int.fdiv size 2, cy + Int.fdiv size 2)]
     (some COLOR_light) (some COLOR_secondary) 3,
   Shape.rect (cx - 6) (cy - Int.fdiv size 5) (cx + 6) (cy + Int.fdiv size 8)
     COLOR_primary,
   Shape.ellipse (cx - 7) (cy + Int.fdiv size 5) (cx + 7)
     (cy + Int.fdiv size 5 + 14) (some COLOR_primary) none 0]
  ++ ((List.range (min bullets.length 5)).map fun i =>
      let angle : Int :=
        -90 + (i : Int) * ((360 / max (min bullets.length 5) 1 : Nat) : Int)
      let p := env.problemXY cx cy size angle
      Shape.ellipse (p.1 - 20) (p.2 - 20) (p.1 + 20) (p.2 + 20)
        (some COLOR_accent) (some COLOR_secondary) 2)
  ++ [Shape.text 30 25 "Current Challenges" COLOR_text fontL]

/-- `_draw_flow_layout`: a left-to-right sequence of rounded boxes labeled
by the bullets (or generic step numbers) with forward arrows between. -/
def drawFlowLayout (w h : Int) (bullets : List String) (fontL fontS : Font) :
    List Shape :=
  let n := max bullets.length 3
  let boxW := Int.fdiv (w - 80 - ((n : Int) - 1) * 40) (n : Int)
  let boxH : Int := 80
  let cy := Int.fdiv h 2
  ((List.range n).flatMap fun i =>
    let x := 40 + (i : Int) * (boxW + 40)
    let y := cy - Int.fdiv boxH 2
    let fill :=
      if i = 0 then COLOR_primary
      else if i = n - 1 then COLOR_secondary else COLOR_accent
    let label :=
      if i < bullets.length then takeChars 12 (bullets.getD i "")
      else "Step " ++ natDecimal (i + 1)
    [Shape.roundedRect x y (x + boxW) (y + boxH) 10 (some fill) none 0,
     Shape.text (x + 10) (y + 30) label COLOR_white fontS]
    ++ (if i < n - 1 then
          let ax := x + boxW + 5
          [Shape.polygon [(ax, cy - 10), (ax + 25, cy), (ax, cy + 10)]
             (some COLOR_secondary) none 0]
        else []))
  ++ [Shape.text (Int.fdiv w 2 - 40) 25 "Process Flow" COLOR_text fontL]

/-- The branch taken by the routing if-chain of `_generate_shape_fallback`. -/
inductive FallbackRoute where
  | card
  | chart
  | problem
  | flow
deriving DecidableEq

/-- The content-aware routing of `_generate_shape_fallback`, in priority
order: three or more bullets → cards; an outcome keyword in the title →
bar chart; a problem keyword → warning glyph; otherwise → flow diagram. -/
def shapeRoute (s : PSlide) : FallbackRoute :=
  if 3 ≤ s.bullets.length then .card
  else if containsSub s.title.data "効果".data ||
      containsSub s.title.data "期待".data then .chart
  else if containsSub s.title.data "課題".data ||
      containsSub s.title.data "問題".data then .problem
  else .flow

/-- `_generate_shape_fallback(slide, width, height, ...)` up to the point
of saving: background canvas, the routed layout's primitives, and the
brand-color strip along the bottom edge. -/
def generateShapeFallback (env : EnvModel) (s : PSlide) (w h : Nat) :
    Rendered :=
  let wi : Int := w
  let hi : Int := h
  let fontL := fontLargeOf env
  let fontS := fontSmallOf env
  let body :=
    match shapeRoute s with
    | .card => drawCardLayout wi hi s.bullets fontL fontS
    | .chart => drawChartLayout env wi hi s.bullets fontL fontS
    | .problem => drawProblemLayout env wi hi s.bullets fontL
    | .flow => drawFlowLayout wi hi s.bullets fontL fontS
  ⟨w, h, COLOR_canvas, body ++ [Shape.rect 0 (hi - 4) wi hi COLOR_primary]⟩

/-- `img.save(filepath)`: writes the PNG encoding of the rendered image.
A PNG file always starts with an 8-byte signature, so the written size is
`8 +` the (abstractly modeled) encoder payload, hence always positive. -/
def saveRendered (env : EnvModel) (r : Rendered) (filepath : String)
    (fs : FS) : FS :=
  fsWrite fs filepath (8 + env.pngPayload r)

/-! ### Image acquisition engine (`generate_slide_images`) -/

/-- One entry of the visual manifest returned by `generate_slide_images`:
`{"path": ..., "type": "imagen" | "fallback_shape"}`. -/
structure ImgResult where
  path : String
  type : String
deriving DecidableEq

/-- The per-slide image geometry derived from the layout: full-bleed layout
gets a wide 1920x1080 canvas, everything else a square 1024x1024 one. -/
def slideSize (layoutVal : String) : Nat × Nat × String :=
  if layoutVal = "IMAGE_FULL_TEXT_BOTTOM" then (1920, 1080, "16:9")
  else (1024, 1024, "1:1")

/-- `os.makedirs(dir, exist_ok=...)`: creating an existing directory is an
error only when `exist_ok` is false. -/
def pymakedirs (dir : String) (existOk : Bool) (fs : FS) : Except PyErr FS :=
  if fs.dirs.contains dir then
    if existOk then .ok fs else .error .fileExistsError
  else .ok { fs with dirs := dir :: fs.dirs }

/-- The slide loop of `generate_slide_images`: for each slide, run the
retry ladder; on success record an `imagen` entry, otherwise render and
save the shape fallback and record a `fallback_shape` entry. -/
def imagesGo (env : EnvModel) (oracle : SynthOracle) (dir : String) :
    List PSlide → Nat → FS → Nat → List (Nat × ImgResult) × FS × Nat
  | [], _, fs, c => ([], fs, c)
  | s :: rest, i, fs, c =>
    match genWithRetries oracle s.image_prompt (slideSize s.layout).2.2
        (slidePath dir i) fs c with
    | (true, fs1, c1) =>
      ((i, ⟨slidePath dir i, "imagen"⟩) ::
          (imagesGo env oracle dir rest (i + 1) fs1 c1).1,
        (imagesGo env oracle dir rest (i + 1) fs1 c1).2)
    | (false, fs1, c1) =>
      ((i, ⟨slidePath dir i, "fallback_shape"⟩) ::
          (imagesGo env oracle dir rest (i + 1)
            (saveRendered env
              (generateShapeFallback env s (slideSize s.layout).1
                (slideSize s.layout).2.1)
              (slidePath dir i) fs1) c1).1,
        (imagesGo env oracle dir rest (i + 1)
          (saveRendered env
            (generateShapeFallback env s (slideSize s.layout).1
              (slideSize s.layout).2.1)
            (slidePath dir i) fs1) c1).2)

/-- `generate_slide_images(deck_json, output_dir, ...)`: create the output
directory (`exist_ok=True`), then run the slide loop from index 0. -/
def generateSlideImages (env : EnvModel) (oracle : SynthOracle)
    (slides : List PSlide) (dir : String) (fs : FS) (c : Nat) :
    Except PyErr (List (Nat × ImgResult) × FS × Nat) :=
  match pymakedirs dir true fs with
  | .error e => .error e
  | .ok fs1 => .ok (imagesGo env oracle dir slides 0 fs1 c)

/-- `slide.get(key, default)` for a string-valued key. -/
def jStrD (v : Option JVal) (dflt : String) : String :=
  match v with
  | some (.str s) => s
  | _ => dflt

/-- The bullet strings of a slide dict's `bullets` value. -/
def jBullets (v : Option JVal) : List String :=
  match v with
  | some (.arr l) =>
    l.filterMap fun x =>
      match x with
      | .str s => some s
      | _ => none
  | _ => []

/-- Projection of a slide dict into the typed record the image engine
consumes; the defaults are the ones `generate_slide_images` and
`_generate_shape_fallback` pass to `.get`. -/
def toPSlide (v : JVal) : PSlide :=
  match v with
  | .obj sd =>
    { title := jStrD (alGet sd "title") ""
      message := jStrD (alGet sd "message") ""
      body := jStrD (alGet sd "body") ""
      bullets := jBullets (alGet sd "bullets")
      image_prompt := jStrD (alGet sd "image_prompt") ""
      layout := jStrD (alGet sd "layout") "TITLE_LEFT_IMAGE_RIGHT" }
  | _ => ⟨"", "", "", [], "", "TITLE_LEFT_IMAGE_RIGHT"⟩

/-- The typed slides of a deck dict. -/
def deckPSlides (d : Dict) : List PSlide :=
  match alGet d "slides" with
  | some (.arr l) => l.map toPSlide
  | _ => []

/-- The typed slides of the no-AI fallback deck. -/
def fallbackPSlides : List PSlide := deckPSlides fallbackDeck

/-- An image capability that is entirely unavailable: every invocation
fails. -/
def constFailOracle : SynthOracle := fun _ _ _ => .failure

/-- A trivial renderer environment used for concrete runs in examples. -/
def envZero : EnvModel :=
  { fontsLoaded := true
    chartBarH := fun _ _ _ => 0
    problemXY := fun _ _ _ _ => (0, 0)
    pngPayload := fun _ => 0 }

/-- The positional decimal value of a digit list, used to prove that
decimal rendering is injective. -/
def digitsVal (l : List Nat) : Nat := l.foldl (fun a d => a * 10 + d) 0

/-! ## Association-list lemmas -/

theorem alGet_alSet_self {α : Type} (d : List (String × α)) (k : String)
    (v : α) : alGet (alSet d k v) k = some v := by
  induction d with
  | nil => simp [alSet, alGet]
  | cons hd tl ih =>
    obtain ⟨k', w⟩ := hd
    by_cases h : k' = k
    · subst h; simp [alSet, alGet]
    · simp [alSet, alGet, h, ih]

theorem alGet_alSet_ne {α : Type} (d : List (String × α)) {k k' : String}
    (v : α) (h : k' ≠ k) : alGet (alSet d k v) k' = alGet d k' := by
  induction d with
  | nil => simp [alSet, alGet, Ne.symm h]
  | cons hd tl ih =>
    obtain ⟨k'', w⟩ := hd
    by_cases hk : k'' = k
    · subst hk; simp [alSet, alGet, Ne.symm h]
    · simp [alSet, alGet, hk, ih]

theorem alSet_self {α : Type} {d : List (String × α)} {k : String} {v : α}
    (h : alGet d k = some v) : alSet d k v = d := by
  induction d with
  | nil => simp [alGet] at h
  | cons hd tl ih =>
    obtain ⟨k', w⟩ := hd
    by_cases hk : k' = k
    · subst hk
      simp [alGet] at h
      simp [alSet, h]
    · simp only [alGet, if_neg hk] at h
      simp [alSet, hk, ih h]

theorem alGet_append_of_some {α : Type} {d : List (String × α)} {k : String}
    {v : α} (e : List (String × α)) (h : alGet d k = some v) :
    alGet (d ++ e) k = some v := by
  induction d with
  | nil => simp [alGet] at h
  | cons hd tl ih =>
    obtain ⟨k', w⟩ := hd
    by_cases hk : k' = k
    · subst hk; simp only [alGet, if_pos rfl] at h ⊢; exact h
    · simp only [alGet, if_neg hk] at h ⊢
      exact ih h

theorem alGet_append_of_none {α : Type} {d : List (String × α)} {k : String}
    (e : List (String × α)) (h : alGet d k = none) :
    alGet (d ++ e) k = alGet e k := by
  induction d with
  | nil => simp
  | cons hd tl ih =>
    obtain ⟨k', w⟩ := hd
    by_cases hk : k' = k
    · simp [alGet, hk] at h
    · simp only [alGet, if_neg hk] at h ⊢
      exact ih h

theorem alSetD_of_isSome {α : Type} {d : List (String × α)} {k : String}
    (v : α) (h : (alGet d k).isSome) : alSetD d k v = d := by
  unfold alSetD
  cases hh : alGet d k with
  | some w => rfl
  | none => rw [hh] at h; simp at h

theorem alGet_alSetD_self {α : Type} (d : List (String × α)) (k : String)
    (v : α) : alGet (alSetD d k v) k = some ((alGet d k).getD v) := by
  unfold alSetD
  cases hh : alGet d k with
  | some w => simp [hh]
  | none =>
    rw [alGet_append_of_none _ hh]
    simp [alGet]

theorem alGet_alSetD_ne {α : Type} (d : List (String × α)) {k k' : String}
    (v : α) (h : k' ≠ k) : alGet (alSetD d k v) k' = alGet d k' := by
  unfold alSetD
  cases hh : alGet d k with
  | some w => rfl
  | none =>
    cases hh' : alGet d k' with
    | some w => exact alGet_append_of_some _ hh'
    | none =>
      rw [alGet_append_of_none _ hh']
      simp [alGet, Ne.symm h]

theorem alGet_ensureKey_ne (d : Dict) {k k' : String} (v : JVal)
    (h : k' ≠ k) : alGet (ensureKey d k v) k' = alGet d k' := by
  unfold ensureKey
  split
  · rfl
  · exact alGet_alSet_ne d v h

theorem alGet_ensureKey_isSome (d : Dict) (k : String) (v : JVal) :
    (alGet (ensureKey d k v) k).isSome := by
  unfold ensureKey
  split
  · assumption
  · rw [alGet_alSet_self]; rfl

theorem ensureKey_of_isSome {d : Dict} {k : String} (v : JVal)
    (h : (alGet d k).isSome) : ensureKey d k v = d := by
  simp [ensureKey, h]

/-! ## Fill-loop lemmas -/

theorem fillDefaults_title (sd : Dict) :
    alGet (fillDefaults sd) "title" = some ((alGet sd "title").getD (.str "")) := by
  unfold fillDefaults
  rw [alGet_alSetD_ne _ _ (by decide), alGet_alSetD_ne _ _ (by decide),
      alGet_alSetD_ne _ _ (by decide), alGet_alSetD_ne _ _ (by decide),
      alGet_alSetD_self]

theorem fillDefaults_message (sd : Dict) :
    alGet (fillDefaults sd) "message" =
      some ((alGet (alSetD sd "title" (.str "")) "message").getD (.str "")) := by
  unfold fillDefaults
  rw [alGet_alSetD_ne _ _ (by decide), alGet_alSetD_ne _ _ (by decide),
      alGet_alSetD_ne _ _ (by decide), alGet_alSetD_self]

theorem fillDefaults_isSome (sd : Dict) :
    (alGet (fillDefaults sd) "title").isSome ∧
    (alGet (fillDefaults sd) "message").isSome ∧
    (alGet (fillDefaults sd) "body").isSome ∧
    (alGet (fillDefaults sd) "bullets").isSome ∧
    (alGet (fillDefaults sd) "image_prompt").isSome := by
  unfold fillDefaults
  refine ⟨?_, ?_, ?_, ?_, ?_⟩
  · rw [alGet_alSetD_ne _ _ (by decide), alGet_alSetD_ne _ _ (by decide),
        alGet_alSetD_ne _ _ (by decide), alGet_alSetD_ne _ _ (by decide),
        alGet_alSetD_self]
    rfl
  · rw [alGet_alSetD_ne _ _ (by decide), alGet_alSetD_ne _ _ (by decide),
        alGet_alSetD_ne _ _ (by decide), alGet_alSetD_self]
    rfl
  · rw [alGet_alSetD_ne _ _ (by decide), alGet_alSetD_ne _ _ (by decide),
        alGet_alSetD_self]
    rfl
  · rw [alGet_alSetD_ne _ _ (by decide), alGet_alSetD_self]
    rfl
  · rw [alGet_alSetD_self]
    rfl

theorem fillDefaults_layout (sd : Dict) :
    alGet (fillDefaults sd) "layout" = alGet sd "layout" := by
  unfold fillDefaults
  rw [alGet_alSetD_ne _ _ (by decide), alGet_alSetD_ne _ _ (by decide),
      alGet_alSetD_ne _ _ (by decide), alGet_alSetD_ne _ _ (by decide),
      alGet_alSetD_ne _ _ (by decide)]

theorem fillDefaults_of_complete {sd : Dict}
    (h1 : (alGet sd "title").isSome) (h2 : (alGet sd "message").isSome)
    (h3 : (alGet sd "body").isSome) (h4 : (alGet sd "bullets").isSome)
    (h5 : (alGet sd "image_prompt").isSome) : fillDefaults sd = sd := by
  unfold fillDefaults
  rw [alSetD_of_isSome _ h1, alSetD_of_isSome _ h2, alSetD_of_isSome _ h3,
      alSetD_of_isSome _ h4, alSetD_of_isSome _ h5]

theorem fixDict_layout (sd : Dict) :
    alGet (fixDict sd) "layout" =
      if layoutIsValid (alGet sd "layout") then alGet sd "layout"
      else some (.str "TITLE_LEFT_IMAGE_RIGHT") := by
  unfold fixDict
  rw [fillDefaults_layout]
  by_cases hv : layoutIsValid (alGet sd "layout")
  · simp only [hv, if_true]
    exact fillDefaults_layout sd
  · simp only [hv, if_false, Bool.false_eq_true]
    rw [alGet_alSet_self]

theorem fixDict_key_ne_layout (sd : Dict) (k : String) (hk : k ≠ "layout") :
    alGet (fixDict sd) k = alGet (fillDefaults sd) k := by
  unfold fixDict
  by_cases hv : layoutIsValid (alGet (fillDefaults sd) "layout")
  · simp only [hv, if_true]
  · simp only [hv, if_false, Bool.false_eq_true]
    exact alGet_alSet_ne _ _ hk

theorem fixDict_title (sd : Dict) :
    alGet (fixDict sd) "title" = some ((alGet sd "title").getD (.str "")) := by
  rw [fixDict_key_ne_layout _ _ (by decide), fillDefaults_title]

theorem fixDict_complete (sd : Dict) : SlideComplete (.obj (fixDict sd)) := by
  obtain ⟨h1, h2, h3, h4, h5⟩ := fillDefaults_isSome sd
  refine ⟨fixDict sd, rfl, ?_, ?_, ?_, ?_, ?_, ?_⟩
  · rw [fixDict_key_ne_layout _ _ (by decide)]; exact h1
  · rw [fixDict_key_ne_layout _ _ (by decide)]; exact h2
  · rw [fixDict_key_ne_layout _ _ (by decide)]; exact h3
  · rw [fixDict_key_ne_layout _ _ (by decide)]; exact h4
  · rw [fixDict_key_ne_layout _ _ (by decide)]; exact h5
  · rw [fixDict_layout]
    by_cases hv : layoutIsValid (alGet sd "layout")
    · simp [hv]
    · simp only [hv, if_false, Bool.false_eq_true]
      decide

theorem fixDict_of_complete {sd : Dict}
    (h1 : (alGet sd "title").isSome) (h2 : (alGet sd "message").isSome)
    (h3 : (alGet sd "body").isSome) (h4 : (alGet sd "bullets").isSome)
    (h5 : (alGet sd "image_prompt").isSome)
    (h6 : layoutIsValid (alGet sd "layout") = true) : fixDict sd = sd := by
  unfold fixDict
  rw [fillDefaults_of_complete h1 h2 h3 h4 h5]
  simp [h6]

theorem layoutHashable_of_valid {v : Option JVal}
    (h : layoutIsValid v = true) : layoutHashable v = true := by
  cases v with
  | none => rfl
  | some x => cases x <;> first | rfl | simp [layoutIsValid] at h

theorem fixSlide_ok_iff {s t : JVal} :
    fixSlide s = .ok t ↔ ∃ sd, s = .obj sd ∧
      layoutHashable (alGet (fillDefaults sd) "layout") = true ∧
      t = .obj (fixDict sd) := by
  constructor
  · intro h
    cases s with
    | obj sd =>
      by_cases hh : layoutHashable (alGet (fillDefaults sd) "layout") = true
      · refine ⟨sd, rfl, hh, ?_⟩
        have hok : fixSlide (.obj sd) = .ok (.obj (fixDict sd)) := by
          simp only [fixSlide, hh, if_true]
        rw [hok] at h
        exact (Except.ok.inj h).symm
      · have herr : fixSlide (.obj sd) = .error .typeError := by
          simp only [fixSlide, hh, Bool.false_eq_true, if_false]
        rw [herr] at h
        exact absurd h (by simp)
    | null => exact absurd h (by simp [fixSlide])
    | bool b => exact absurd h (by simp [fixSlide])
    | int n => exact absurd h (by simp [fixSlide])
    | str s => exact absurd h (by simp [fixSlide])
    | arr l => exact absurd h (by simp [fixSlide])
  · rintro ⟨sd, rfl, hh, rfl⟩
    simp only [fixSlide, hh, if_true]

theorem complete_fixSlide {s : JVal} (h : SlideComplete s) :
    fixSlide s = .ok s := by
  obtain ⟨sd, rfl, h1, h2, h3, h4, h5, h6⟩ := h
  have hh : layoutHashable (alGet (fillDefaults sd) "layout") = true := by
    rw [fillDefaults_layout]
    exact layoutHashable_of_valid h6
  simp [fixSlide, hh, fixDict_of_complete h1 h2 h3 h4 h5 h6]

theorem fixSlide_complete {s t : JVal} (h : fixSlide s = .ok t) :
    SlideComplete t := by
  obtain ⟨sd, rfl, hh, rfl⟩ := fixSlide_ok_iff.mp h
  exact fixDict_complete sd

theorem fixSlide_idem {s t : JVal} (h : fixSlide s = .ok t) :
    fixSlide t = .ok t :=
  complete_fixSlide (fixSlide_complete h)

theorem titleEffectCheck_fixDict (sd : Dict) :
    titleEffectCheck (.obj (fixDict sd)) = titleEffectCheck (.obj sd) := by
  simp only [titleEffectCheck, fixDict_title, Option.getD_some]

/-! ## `mapE` and `anyEffect` lemmas -/

theorem mapE_length {f : JVal → Except PyErr JVal} :
    ∀ {l r : List JVal}, mapE f l = .ok r → r.length = l.length := by
  intro l
  induction l with
  | nil => intro r h; simp only [mapE, Except.ok.injEq] at h; subst h; rfl
  | cons x rest ih =>
    intro r h
    simp only [mapE] at h
    cases hfx : f x with
    | error e => rw [hfx] at h; exact absurd h (by simp)
    | ok y =>
      rw [hfx] at h
      cases hmr : mapE f rest with
      | error e => rw [hmr] at h; exact absurd h (by simp)
      | ok ys =>
        rw [hmr] at h
        simp only [Except.ok.injEq] at h
        subst h
        simp [ih hmr]

theorem mapE_mem {f : JVal → Except PyErr JVal} :
    ∀ {l r : List JVal}, mapE f l = .ok r → ∀ y ∈ r, ∃ x ∈ l, f x = .ok y := by
  intro l
  induction l with
  | nil =>
    intro r h
    simp only [mapE, Except.ok.injEq] at h
    subst h
    simp
  | cons x rest ih =>
    intro r h
    simp only [mapE] at h
    cases hfx : f x with
    | error e => rw [hfx] at h; exact absurd h (by simp)
    | ok y =>
      rw [hfx] at h
      cases hmr : mapE f rest with
      | error e => rw [hmr] at h; exact absurd h (by simp)
      | ok ys =>
        rw [hmr] at h
        simp only [Except.ok.injEq] at h
        subst h
        intro z hz
        rcases List.mem_cons.mp hz with rfl | hz'
        · exact ⟨x, List.mem_cons_self _ _, hfx⟩
        · obtain ⟨x', hx', hfx'⟩ := ih hmr z hz'
          exact ⟨x', List.mem_cons_of_mem _ hx', hfx'⟩

theorem mapE_mem_forward {f : JVal → Except PyErr JVal} :
    ∀ {l r : List JVal}, mapE f l = .ok r → ∀ x ∈ l, ∃ y ∈ r, f x = .ok y := by
  intro l
  induction l with
  | nil => intro r h x hx; simp at hx
  | cons x rest ih =>
    intro r h z hz
    simp only [mapE] at h
    cases hfx : f x with
    | error e => rw [hfx] at h; exact absurd h (by simp)
    | ok y =>
      rw [hfx] at h
      cases hmr : mapE f rest with
      | error e => rw [hmr] at h; exact absurd h (by simp)
      | ok ys =>
        rw [hmr] at h
        simp only [Except.ok.injEq] at h
        subst h
        rcases List.mem_cons.mp hz with rfl | hz'
        · exact ⟨y, List.mem_cons_self _ _, hfx⟩
        · obtain ⟨y', hy', hfy'⟩ := ih hmr z hz'
          exact ⟨y', List.mem_cons_of_mem _ hy', hfy'⟩

theorem mapE_get? {f : JVal → Except PyErr JVal} :
    ∀ {l r : List JVal}, mapE f l = .ok r → ∀ i, i < l.length →
      ∃ x y, l.get? i = some x ∧ r.get? i = some y ∧ f x = .ok y := by
  intro l
  induction l with
  | nil => intro r h i hi; simp at hi
  | cons x rest ih =>
    intro r h i hi
    simp only [mapE] at h
    cases hfx : f x with
    | error e => rw [hfx] at h; exact absurd h (by simp)
    | ok y =>
      rw [hfx] at h
      cases hmr : mapE f rest with
      | error e => rw [hmr] at h; exact absurd h (by simp)
      | ok ys =>
        rw [hmr] at h
        simp only [Except.ok.injEq] at h
        subst h
        cases i with
        | zero => exact ⟨x, y, rfl, rfl, hfx⟩
        | succ j =>
          simp only [List.length_cons, Nat.succ_lt_succ_iff] at hi
          obtain ⟨x', y', hx', hy', hf'⟩ := ih hmr j hi
          exact ⟨x', y', hx', hy', hf'⟩

theorem mapE_id {f : JVal → Except PyErr JVal} :
    ∀ {l : List JVal}, (∀ x ∈ l, f x = .ok x) → mapE f l = .ok l := by
  intro l
  induction l with
  | nil => intro _; rfl
  | cons x rest ih =>
    intro h
    simp only [mapE, h x (List.mem_cons_self _ _),
      ih fun z hz => h z (List.mem_cons_of_mem _ hz)]

theorem mapE_total {f : JVal → Except PyErr JVal} :
    ∀ {l : List JVal}, (∀ x ∈ l, ∃ y, f x = .ok y) →
      ∃ r, mapE f l = .ok r := by
  intro l
  induction l with
  | nil => intro _; exact ⟨[], rfl⟩
  | cons x rest ih =>
    intro h
    obtain ⟨y, hy⟩ := h x (List.mem_cons_self _ _)
    obtain ⟨r, hr⟩ := ih fun z hz => h z (List.mem_cons_of_mem _ hz)
    exact ⟨y :: r, by simp only [mapE, hy, hr]⟩

theorem anyEffect_false_iff {l : List JVal} :
    anyEffect l = .ok false ↔ ∀ s ∈ l, titleEffectCheck s = .ok false := by
  induction l with
  | nil => simp [anyEffect]
  | cons s rest ih =>
    simp only [anyEffect]
    cases hs : titleEffectCheck s with
    | error e =>
      simp only [List.mem_cons]
      constructor
      · intro h; exact absurd h (by simp)
      · intro h
        have := h s (Or.inl rfl)
        rw [hs] at this
        exact absurd this (by simp)
    | ok b =>
      cases b with
      | true =>
        simp only [List.mem_cons]
        constructor
        · intro h; exact absurd h (by simp)
        · intro h
          have := h s (Or.inl rfl)
          rw [hs] at this
          simp at this
      | false =>
        simp only [List.mem_cons, ih]
        constructor
        · intro h z hz
          rcases hz with rfl | hz'
          · exact hs
          · exact h z hz'
        · intro h z hz
          exact h z (Or.inr hz)

theorem anyEffect_append_of_false {l l2 : List JVal}
    (h : anyEffect l = .ok false) :
    anyEffect (l ++ l2) = anyEffect l2 := by
  induction l with
  | nil => rfl
  | cons s rest ih =>
    simp only [anyEffect] at h ⊢
    cases hs : titleEffectCheck s with
    | error e => rw [hs] at h; exact absurd h (by simp)
    | ok b =>
      rw [hs] at h
      cases b with
      | true => exact absurd h (by simp)
      | false => simp only [List.cons_append]; exact ih h

theorem anyEffect_total {l : List JVal}
    (h : ∀ s ∈ l, ∃ b, titleEffectCheck s = .ok b) :
    ∃ b, anyEffect l = .ok b := by
  induction l with
  | nil => exact ⟨false, rfl⟩
  | cons s rest ih =>
    obtain ⟨b, hb⟩ := h s (List.mem_cons_self _ _)
    cases b with
    | true => exact ⟨true, by simp only [anyEffect, hb]⟩
    | false =>
      obtain ⟨b', hb'⟩ := ih fun z hz => h z (List.mem_cons_of_mem _ hz)
      exact ⟨b', by simp only [anyEffect, hb, hb']⟩

theorem iterSlides_ne_nil {sv : JVal} {l : List JVal}
    (ht : sv.truthy = true) (h : iterSlides sv = .ok l) : l ≠ [] := by
  cases sv with
  | null => simp [JVal.truthy] at ht
  | bool b => simp [iterSlides] at h
  | int n => simp [iterSlides] at h
  | str s =>
    simp only [iterSlides, Except.ok.injEq] at h
    subst h
    simp only [JVal.truthy, Bool.not_eq_true'] at ht
    intro hl
    rw [List.map_eq_nil_iff] at hl
    rw [hl] at ht
    simp at ht
  | arr items =>
    simp only [iterSlides, Except.ok.injEq] at h
    subst h
    simp only [JVal.truthy, Bool.not_eq_true'] at ht
    exact List.ne_nil_of_length_pos (by
      cases items with
      | nil => simp at ht
      | cons a t => simp)
  | obj fields =>
    simp only [iterSlides, Except.ok.injEq] at h
    subst h
    simp only [JVal.truthy, Bool.not_eq_true'] at ht
    intro hl
    rw [List.map_eq_nil_iff] at hl
    subst hl
    simp at ht

/-! ## Validator structure lemmas -/

theorem fixSlide_effectSlide : fixSlide effectSlide = .ok effectSlide := rfl

theorem validateAndFix_inv {deck : Dict} {src : String} {d : Dict}
    (h : validateAndFix deck src = .ok d) :
    (d = fallbackDeck ∧
      (alGet deck "slides" = none ∨
        ∃ sv, alGet deck "slides" = some sv ∧ sv.truthy = false)) ∨
    (∃ sv slides fixed b,
      alGet deck "slides" = some sv ∧ sv.truthy = true ∧
      iterSlides sv = .ok slides ∧ mapE fixSlide slides = .ok fixed ∧
      anyEffect fixed = .ok b ∧
      d = alSet
        (ensureKey (ensureKey deck "deck_title" (.str "Presentation"))
          "theme" defaultTheme)
        "slides" (.arr (if b then fixed else fixed ++ [effectSlide]))) := by
  unfold validateAndFix validateCore at h
  have hsl :
      alGet (ensureKey (ensureKey deck "deck_title" (.str "Presentation"))
        "theme" defaultTheme) "slides" = alGet deck "slides" := by
    rw [alGet_ensureKey_ne _ _ (by decide), alGet_ensureKey_ne _ _ (by decide)]
  rw [hsl] at h
  split at h
  · rename_i hs
    simp only [Except.ok.injEq] at h
    exact Or.inl ⟨h.symm, Or.inl hs⟩
  · rename_i sv hs
    split at h
    · rename_i htr
      simp only [Except.ok.injEq] at h
      exact Or.inl ⟨h.symm, Or.inr ⟨sv, hs, htr⟩⟩
    · rename_i htr
      have htr' : sv.truthy = true := by
        cases hb : sv.truthy
        · exact absurd hb htr
        · rfl
      split at h
      · simp at h
      · rename_i slides hit
        split at h
        · simp at h
        · rename_i fixed hmap
          split at h
          · simp at h
          · rename_i b hany
            simp only [Except.ok.injEq] at h
            exact Or.inr ⟨sv, slides, fixed, b, hs, htr', hit, hmap, hany, h.symm⟩

theorem validated_fallback : Validated fallbackDeck := by
  refine ⟨rfl, rfl, _, rfl, by simp, ?_, rfl⟩
  intro s hs
  simp only [List.mem_cons, List.not_mem_nil, or_false] at hs
  rcases hs with rfl | rfl | rfl | rfl <;> rfl

theorem validateAndFix_ok_validated {deck : Dict} {src : String} {d : Dict}
    (h : validateAndFix deck src = .ok d) : Validated d := by
  rcases validateAndFix_inv h with ⟨rfl, -⟩ |
    ⟨sv, slides, fixed, b, hsv, htr, hit, hmap, hany, rfl⟩
  · exact validated_fallback
  · have hfixed_ne : fixed ≠ [] := by
      intro hf
      have h1 := mapE_length hmap
      rw [hf] at h1
      exact iterSlides_ne_nil htr hit (List.eq_nil_of_length_eq_zero h1.symm)
    refine ⟨?_, ?_, _, alGet_alSet_self _ _ _, ?_, ?_, ?_⟩
    · rw [alGet_alSet_ne _ _ (by decide), alGet_ensureKey_ne _ _ (by decide)]
      exact alGet_ensureKey_isSome _ _ _
    · rw [alGet_alSet_ne _ _ (by decide)]
      exact alGet_ensureKey_isSome _ _ _
    · cases b with
      | true => simpa using hfixed_ne
      | false => simp
    · intro s hs
      cases b with
      | true =>
        simp only [if_pos rfl] at hs
        obtain ⟨x, hx, hfx⟩ := mapE_mem hmap s hs
        exact fixSlide_idem hfx
      | false =>
        simp only [if_neg (by simp : ¬(false = true))] at hs
        rcases List.mem_append.mp hs with hs' | hs'
        · obtain ⟨x, hx, hfx⟩ := mapE_mem hmap s hs'
          exact fixSlide_idem hfx
        · simp only [List.mem_singleton] at hs'
          subst hs'
          exact fixSlide_effectSlide
    · cases b with
      | true => simpa using hany
      | false =>
        simp only [if_neg (by simp : ¬(false = true))]
        rw [anyEffect_append_of_false hany]
        rfl

theorem validated_fix {d : Dict} (hv : Validated d) (src' : String) :
    validateAndFix d src' = .ok d := by
  obtain ⟨h1, h2, out, hsl, hne, hfix, hany⟩ := hv
  unfold validateAndFix validateCore
  rw [ensureKey_of_isSome _ h1, ensureKey_of_isSome _ h2, hsl]
  have htr : (JVal.arr out).truthy = true := by
    simp [JVal.truthy, hne]
  simp only [htr, iterSlides, mapE_id hfix, hany, if_true, Bool.true_eq_false,
    if_false, alSet_self hsl]

theorem deckComplete_of_validated {d : Dict} (hv : Validated d) :
    DeckComplete d := by
  obtain ⟨h1, h2, out, hsl, hne, hfix, hany⟩ := hv
  exact ⟨h1, h2, out, hsl, hne, fun s hs => fixSlide_complete (hfix s hs)⟩

theorem validateAndFix_arr_inv {deck : Dict} {src : String} {d : Dict}
    {l : List JVal} (hs : alGet deck "slides" = some (.arr l)) (hne : l ≠ [])
    (h : validateAndFix deck src = .ok d) :
    ∃ fixed b, mapE fixSlide l = .ok fixed ∧ anyEffect fixed = .ok b ∧
      alGet d "slides" =
        some (.arr (if b then fixed else fixed ++ [effectSlide])) := by
  rcases validateAndFix_inv h with ⟨rfl, hcase⟩ |
    ⟨sv, slides, fixed, b, hsv, htr, hit, hmap, hany, rfl⟩
  · rcases hcase with hnone | ⟨sv, hsv, htr⟩
    · rw [hs] at hnone; exact absurd hnone (by simp)
    · rw [hs] at hsv
      injection hsv with hsv
      subst hsv
      simp [JVal.truthy, hne] at htr
  · rw [hs] at hsv
    injection hsv with hsv
    subst hsv
    have hslides : slides = l := by
      have := hit
      simp only [iterSlides, Except.ok.injEq] at this
      exact this.symm
    subst hslides
    exact ⟨fixed, b, hmap, hany, alGet_alSet_self _ _ _⟩

theorem slideComplete_effectSlide : SlideComplete effectSlide :=
  ⟨_, rfl, rfl, rfl, rfl, rfl, rfl, rfl⟩

theorem titleEffectCheck_str_total (sd : Dict)
    (htitle : ∀ v, alGet sd "title" = some v → ∃ t, v = .str t) :
    ∃ b, titleEffectCheck (.obj sd) = .ok b := by
  cases ht : alGet sd "title" with
  | none => exact ⟨false, by simp only [titleEffectCheck, ht]; rfl⟩
  | some v =>
    obtain ⟨t, rfl⟩ := htitle v ht
    cases hc : containsSub t.data "効果".data with
    | true => exact ⟨true, by simp [titleEffectCheck, ht, pyInStr, hc]⟩
    | false =>
      exact ⟨containsSub (lowerStr t).data "effect".data,
        by simp [titleEffectCheck, ht, pyInStr, hc, pyLower]⟩

/-! ## Claims about the validator (C2 - C5) -/

/-- Claim C2 counterexample: the validator has no special case for the
first slide.  On a deck whose single (hence first) slide has an
unrecognized layout, the repaired first slide's layout is
`TITLE_LEFT_IMAGE_RIGHT`, not `TITLE` as the claim asserts. -/
theorem c2_counterexample :
    ∃ d out sd,
      validateAndFix
        [("slides", .arr [.obj [("title", .str "効果テスト"),
          ("layout", .str "BOGUS")]])] "txt" = .ok d ∧
      alGet d "slides" = some (.arr out) ∧
      out.head? = some (.obj sd) ∧
      alGet sd "layout" = some (.str "TITLE_LEFT_IMAGE_RIGHT") ∧
      JVal.str "TITLE_LEFT_IMAGE_RIGHT" ≠ JVal.str "TITLE" := by
  refine ⟨_, _, _, by rfl, by rfl, by rfl, by rfl, ?_⟩
  intro hcontra
  exact absurd (JVal.str.inj hcontra) (by decide)

/-- Claim C2 (amended): after `_validate_and_fix` succeeds on a deck whose
slides list is non-empty, every output slide's layout is one of the three
recognized values, and the i-th slide's layout equals its input layout when
that was recognized and `TITLE_LEFT_IMAGE_RIGHT` otherwise — for every
slide, including the very first, which receives no special `TITLE`
coercion. -/
theorem c2_layout_coercion (deck : Dict) (src : String) (l : List JVal)
    (d : Dict) (hs : alGet deck "slides" = some (.arr l)) (hne : l ≠ [])
    (h : validateAndFix deck src = .ok d) :
    ∃ out, alGet d "slides" = some (.arr out) ∧
      (∀ s ∈ out, ∃ sd, s = .obj sd ∧
        layoutIsValid (alGet sd "layout") = true) ∧
      (∀ i, i < l.length → ∃ sd sd', l.get? i = some (.obj sd) ∧
        out.get? i = some (.obj sd') ∧
        alGet sd' "layout" =
          (if layoutIsValid (alGet sd "layout") then alGet sd "layout"
           else some (.str "TITLE_LEFT_IMAGE_RIGHT"))) := by
  obtain ⟨fixed, b, hmap, hany, hout⟩ := validateAndFix_arr_inv hs hne h
  refine ⟨_, hout, ?_, ?_⟩
  · intro s hsmem
    have hsc : SlideComplete s := by
      cases b with
      | true =>
        simp only [if_true] at hsmem
        obtain ⟨x, hx, hfx⟩ := mapE_mem hmap s hsmem
        exact fixSlide_complete hfx
      | false =>
        simp only [Bool.false_eq_true, if_false] at hsmem
        rcases List.mem_append.mp hsmem with hs' | hs'
        · obtain ⟨x, hx, hfx⟩ := mapE_mem hmap s hs'
          exact fixSlide_complete hfx
        · simp only [List.mem_singleton] at hs'
          subst hs'
          exact slideComplete_effectSlide
    obtain ⟨sd, rfl, _, _, _, _, _, h6⟩ := hsc
    exact ⟨sd, rfl, h6⟩
  · intro i hi
    obtain ⟨x, y, hx, hy, hf⟩ := mapE_get? hmap i hi
    obtain ⟨sd, rfl, hhash, hyeq⟩ := fixSlide_ok_iff.mp hf
    subst hyeq
    refine ⟨sd, fixDict sd, hx, ?_, fixDict_layout sd⟩
    have hi' : i < fixed.length := by rw [mapE_length hmap]; exact hi
    cases b with
    | true => simpa using hy
    | false =>
      simp only [Bool.false_eq_true, if_false]
      rw [List.get?_append hi']
      exact hy

/-- Claim C2 witness: the amended theorem applied to a one-slide deck whose
slide dict is empty (missing layout). -/
theorem c2_witness :
    ∃ out,
      alGet ((validateAndFix [("slides", JVal.arr [JVal.obj []])]
          "w").toOption.getD []) "slides" = some (JVal.arr out) ∧
      (∀ s ∈ out, ∃ sd, s = JVal.obj sd ∧
        layoutIsValid (alGet sd "layout") = true) ∧
      (∀ i, i < ([JVal.obj []] : List JVal).length → ∃ sd sd',
        ([JVal.obj []] : List JVal).get? i = some (.obj sd) ∧
        out.get? i = some (.obj sd') ∧
        alGet sd' "layout" =
          (if layoutIsValid (alGet sd "layout") then alGet sd "layout"
           else some (.str "TITLE_LEFT_IMAGE_RIGHT"))) :=
  c2_layout_coercion [("slides", JVal.arr [JVal.obj []])] "w" [JVal.obj []] _
    (by rfl) (by simp) (by rfl)

/-- Claim C3: on a non-empty slides list none of whose titles matches the
outcome-keyword scan, the validator appends exactly one slide, at the end,
and that slide's title matches the keyword scan; if some title already
matches, no slide is appended. -/
theorem c3_outcome_slide (deck : Dict) (src : String) (l : List JVal)
    (d : Dict) (hs : alGet deck "slides" = some (.arr l)) (hne : l ≠ [])
    (h : validateAndFix deck src = .ok d) :
    ((∀ s ∈ l, titleEffectCheck s = .ok false) →
      ∃ fixed, alGet d "slides" = some (.arr (fixed ++ [effectSlide])) ∧
        fixed.length = l.length ∧ titleEffectCheck effectSlide = .ok true) ∧
    ((∃ s ∈ l, titleEffectCheck s = .ok true) →
      ∃ out, alGet d "slides" = some (.arr out) ∧ out.length = l.length) := by
  obtain ⟨fixed, b, hmap, hany, hout⟩ := validateAndFix_arr_inv hs hne h
  have hcheck : ∀ y ∈ fixed, ∃ x ∈ l, titleEffectCheck y = titleEffectCheck x := by
    intro y hy
    obtain ⟨x, hx, hfx⟩ := mapE_mem hmap y hy
    obtain ⟨sd, rfl, hhash, rfl⟩ := fixSlide_ok_iff.mp hfx
    exact ⟨.obj sd, hx, titleEffectCheck_fixDict sd⟩
  constructor
  · intro hno
    have hfalse : ∀ y ∈ fixed, titleEffectCheck y = .ok false := by
      intro y hy
      obtain ⟨x, hx, he⟩ := hcheck y hy
      rw [he]
      exact hno x hx
    have hb : b = false := by
      cases b with
      | false => rfl
      | true =>
        exact absurd (hany.symm.trans (anyEffect_false_iff.mpr hfalse))
          (by simp)
    subst hb
    simp only [Bool.false_eq_true, if_false] at hout
    exact ⟨fixed, hout, mapE_length hmap, rfl⟩
  · rintro ⟨s, hsmem, hstrue⟩
    have hex : ∃ y ∈ fixed, titleEffectCheck y = .ok true := by
      obtain ⟨y, hy, hfy⟩ := mapE_mem_forward hmap s hsmem
      obtain ⟨sd, hseq, hhash, rfl⟩ := fixSlide_ok_iff.mp hfy
      subst hseq
      exact ⟨_, hy, by rw [titleEffectCheck_fixDict]; exact hstrue⟩
    have hb : b = true := by
      cases b with
      | true => rfl
      | false =>
        obtain ⟨y, hy, hyt⟩ := hex
        exact absurd ((anyEffect_false_iff.mp hany y hy).symm.trans hyt)
          (by simp)
    subst hb
    simp only [if_true] at hout
    exact ⟨fixed, hout, mapE_length hmap⟩

/-- Claim C3 witness: a one-slide deck with an empty slide dict (its
defaulted title matches no keyword) gains exactly the appended outcome
slide. -/
theorem c3_witness :
    ((∀ s ∈ ([JVal.obj []] : List JVal), titleEffectCheck s = .ok false) →
      ∃ fixed,
        alGet ((validateAndFix [("slides", JVal.arr [JVal.obj []])]
            "w").toOption.getD []) "slides" =
          some (JVal.arr (fixed ++ [effectSlide])) ∧
        fixed.length = ([JVal.obj []] : List JVal).length ∧
        titleEffectCheck effectSlide = .ok true) ∧
    ((∃ s ∈ ([JVal.obj []] : List JVal), titleEffectCheck s = .ok true) →
      ∃ out,
        alGet ((validateAndFix [("slides", JVal.arr [JVal.obj []])]
            "w").toOption.getD []) "slides" = some (JVal.arr out) ∧
        out.length = ([JVal.obj []] : List JVal).length) :=
  c3_outcome_slide [("slides", JVal.arr [JVal.obj []])] "w" [JVal.obj []] _
    (by rfl) (by simp) (by rfl)

/-- Claim C4: the validator is idempotent on its own output — a second run
on any successful result returns that result unchanged. -/
theorem c4_idempotent (deck : Dict) (src src' : String) (d : Dict)
    (h : validateAndFix deck src = .ok d) :
    validateAndFix d src' = .ok d :=
  validated_fix (validateAndFix_ok_validated h) src'

/-- Claim C4 witness: a first run on the empty deck yields the fallback
deck, and re-validating the fallback deck yields it unchanged. -/
theorem c4_witness :
    validateAndFix [] "a" = .ok fallbackDeck ∧
    validateAndFix fallbackDeck "b" = .ok fallbackDeck :=
  ⟨rfl, c4_idempotent [] "a" "b" fallbackDeck rfl⟩

/-- Claim C5 counterexample: the validator is not exception-free on
arbitrary structured input.  A deck whose slides list contains the integer
`42` raises `AttributeError` (`42` has no `setdefault`), and a slide whose
`layout` is a list raises `TypeError` at the set-membership test
(`_VALID_LAYOUTS` is a set, and a list is unhashable). -/
theorem c5_counterexample :
    validateAndFix [("slides", .arr [.int 42])] "src" =
      .error .attributeError ∧
    validateAndFix [("slides", .arr [.obj [("title", .str "T"),
      ("layout", .arr [])]])] "src" = .error .typeError := ⟨rfl, rfl⟩

/-- Claim C5 (amended): when the slides collection is missing or empty the
input is discarded in favor of the fallback deck; and on any deck whose
slide entries are dicts with string (or absent) titles and hashable (not
list- or dict-valued) layouts the validator returns, without raising, a
structurally complete deck. -/
theorem c5_total_on_typed (deck : Dict) (src : String) :
    ((alGet deck "slides" = none ∨
        ∃ sv, alGet deck "slides" = some sv ∧ sv.truthy = false) →
      validateAndFix deck src = .ok fallbackDeck) ∧
    (∀ l, alGet deck "slides" = some (.arr l) → (∀ s ∈ l, GoodSlide s) →
      ∃ d, validateAndFix deck src = .ok d ∧ DeckComplete d) := by
  have hsl :
      alGet (ensureKey (ensureKey deck "deck_title" (.str "Presentation"))
        "theme" defaultTheme) "slides" = alGet deck "slides" := by
    rw [alGet_ensureKey_ne _ _ (by decide), alGet_ensureKey_ne _ _ (by decide)]
  constructor
  · intro hcase
    unfold validateAndFix validateCore
    rw [hsl]
    rcases hcase with hnone | ⟨sv, hsv, htr⟩
    · rw [hnone]
    · rw [hsv]
      simp [htr]
  · intro l hsv hgood
    by_cases hne : l = []
    · subst hne
      refine ⟨fallbackDeck, ?_, deckComplete_of_validated validated_fallback⟩
      unfold validateAndFix validateCore
      rw [hsl, hsv]
      simp [JVal.truthy]
    · obtain ⟨fixed, hmap⟩ : ∃ fixed, mapE fixSlide l = .ok fixed := by
        refine mapE_total ?_
        intro x hx
        obtain ⟨sd, rfl, -, hlay⟩ := hgood x hx
        have hh : layoutHashable (alGet (fillDefaults sd) "layout") = true := by
          rw [fillDefaults_layout]
          exact hlay
        exact ⟨.obj (fixDict sd), by simp only [fixSlide, hh, if_true]⟩
      obtain ⟨b, hany⟩ : ∃ b, anyEffect fixed = .ok b := by
        refine anyEffect_total ?_
        intro y hy
        obtain ⟨x, hx, hfx⟩ := mapE_mem hmap y hy
        obtain ⟨sd, hxeq, hhash, rfl⟩ := fixSlide_ok_iff.mp hfx
        subst hxeq
        rw [titleEffectCheck_fixDict]
        obtain ⟨sd', heq, htitle, -⟩ := hgood _ hx
        injection heq with heq
        subst heq
        exact titleEffectCheck_str_total sd htitle
      have heq : validateAndFix deck src =
          .ok (alSet
            (ensureKey (ensureKey deck "deck_title" (.str "Presentation"))
              "theme" defaultTheme)
            "slides" (.arr (if b then fixed else fixed ++ [effectSlide]))) := by
        unfold validateAndFix validateCore
        rw [hsl, hsv]
        have htr : (JVal.arr l).truthy = true := by simp [JVal.truthy, hne]
        simp only [htr, Bool.true_eq_false, if_false, iterSlides, hmap, hany]
      exact ⟨_, heq,
        deckComplete_of_validated (validateAndFix_ok_validated heq)⟩

/-- Claim C5 witness: the amended theorem applied to an empty deck (slides
missing) and to a deck with one well-typed slide. -/
theorem c5_witness :
    validateAndFix [] "s" = .ok fallbackDeck ∧
    ∃ d, validateAndFix [("slides", JVal.arr [JVal.obj [("title",
      JVal.str "T")]])] "s" = .ok d ∧ DeckComplete d :=
  ⟨(c5_total_on_typed [] "s").1 (Or.inl rfl),
   (c5_total_on_typed _ "s").2 [JVal.obj [("title", JVal.str "T")]] rfl (by
      intro s hsmem
      simp only [List.mem_singleton] at hsmem
      subst hsmem
      refine ⟨_, rfl, ?_, rfl⟩
      intro v hv
      simp [alGet] at hv
      exact ⟨"T", hv.symm⟩)⟩

/-! ## Claims about the retry prompts (C6) -/

/-- Claim C6 counterexample: adjective removal is not case-insensitive.
On the prompt `"DETAILED icon"` the implemented second prompt keeps the
all-caps adjective, while the claimed case-insensitive transformation
removes it. -/
theorem c6_counterexample :
    (buildRetryPrompts "DETAILED icon").get? 1 =
      some "DETAILED icon, minimal style, no text" ∧
    claimSecondPrompt "DETAILED icon" = "icon, minimal style, no text" ∧
    ("DETAILED icon, minimal style, no text" : String) ≠
      "icon, minimal style, no text" := by
  refine ⟨by decide, by decide, ?_⟩
  decide

/-- Claim C6 (amended): the second retry prompt equals the original with
each listed heavy adjective removed in its exact lowercase and capitalized
forms only, whitespace runs of length at least two collapsed to one space,
the ends stripped, and the minimal-style / no-text suffixes appended
exactly when those markers are absent case-insensitively. -/
theorem c6_second_prompt (p : String) :
    (buildRetryPrompts p).get? 1 = some (amendedSecondPrompt p) := rfl

/-! ## Retry-ladder lemmas (C7) -/

theorem ladderFS_cons (oracle : SynthOracle) (aspect filepath p : String)
    (rest : List String) (fs : FS) (c0 : Nat) :
    ∀ k, ladderFS oracle aspect filepath (p :: rest) fs c0 (k + 1) =
      ladderFS oracle aspect filepath rest
        ((synthStep oracle c0 p aspect filepath fs).2) (c0 + 1) k := by
  intro k
  induction k with
  | zero => rfl
  | succ k ih =>
    show (synthStep oracle (c0 + (k + 1)) (promptAt (p :: rest) (k + 1))
        aspect filepath
        (ladderFS oracle aspect filepath (p :: rest) fs c0 (k + 1))).2 = _
    rw [ih]
    have harith : c0 + (k + 1) = (c0 + 1) + k := by omega
    rw [harith]
    rfl

theorem ladderOk_cons (oracle : SynthOracle) (aspect filepath p : String)
    (rest : List String) (fs : FS) (c0 : Nat) :
    ∀ k, ladderOk oracle aspect filepath (p :: rest) fs c0 (k + 1) =
      ladderOk oracle aspect filepath rest
        ((synthStep oracle c0 p aspect filepath fs).2) (c0 + 1) k := by
  intro k
  unfold ladderOk ladderReported
  rw [ladderFS_cons, ladderFS_cons]
  have harith : c0 + (k + 1) = (c0 + 1) + k := by omega
  rw [harith]
  rfl

theorem retryGo_firstOk (oracle : SynthOracle) (aspect filepath : String) :
    ∀ (ps : List String) (fs : FS) (c0 j : Nat), j < ps.length →
      ladderOk oracle aspect filepath ps fs c0 j = true →
      (∀ i, i < j → ladderOk oracle aspect filepath ps fs c0 i = false) →
      retryGo oracle aspect filepath ps fs c0 =
        (true, ladderFS oracle aspect filepath ps fs c0 (j + 1), c0 + j + 1) := by
  intro ps
  induction ps with
  | nil => intro fs c0 j hj; simp at hj
  | cons p rest ih =>
    intro fs c0 j hj hok hmin
    rcases hstep : synthStep oracle c0 p aspect filepath fs with ⟨rep, fs1⟩
    have hok0 : ladderOk oracle aspect filepath (p :: rest) fs c0 0 =
        (rep && fileNonEmpty fs1 filepath) := by
      unfold ladderOk ladderReported
      show ((synthStep oracle c0 p aspect filepath fs).1 &&
        fileNonEmpty (synthStep oracle c0 p aspect filepath fs).2 filepath) = _
      rw [hstep]
    cases j with
    | zero =>
      rw [hok0] at hok
      have hrep : rep = true := by
        cases rep
        · simp at hok
        · rfl
      have hne : fileNonEmpty fs1 filepath = true := by
        cases hfe : fileNonEmpty fs1 filepath
        · rw [hfe] at hok; simp at hok
        · rfl
      subst hrep
      show (match synthStep oracle c0 p aspect filepath fs with
        | (false, fs1) => retryGo oracle aspect filepath rest fs1 (c0 + 1)
        | (true, fs1) =>
          if fileNonEmpty fs1 filepath then (true, fs1, c0 + 1)
          else retryGo oracle aspect filepath rest fs1 (c0 + 1)) = _
      rw [hstep]
      simp only [hne, if_true]
      have hfs : ladderFS oracle aspect filepath (p :: rest) fs c0 1 = fs1 := by
        show (synthStep oracle c0 p aspect filepath fs).2 = fs1
        rw [hstep]
      rw [hfs]
    | succ k =>
      have hok0f : ladderOk oracle aspect filepath (p :: rest) fs c0 0 = false :=
        hmin 0 (Nat.succ_pos k)
      rw [hok0] at hok0f
      have hrec : retryGo oracle aspect filepath (p :: rest) fs c0 =
          retryGo oracle aspect filepath rest fs1 (c0 + 1) := by
        show (match synthStep oracle c0 p aspect filepath fs with
          | (false, fs1) => retryGo oracle aspect filepath rest fs1 (c0 + 1)
          | (true, fs1) =>
            if fileNonEmpty fs1 filepath then (true, fs1, c0 + 1)
            else retryGo oracle aspect filepath rest fs1 (c0 + 1)) = _
        rw [hstep]
        cases rep with
        | false => rfl
        | true =>
          simp only [Bool.true_and] at hok0f
          simp only [hok0f, if_false, Bool.false_eq_true]
      rw [hrec]
      have hok' : ladderOk oracle aspect filepath rest fs1 (c0 + 1) k = true := by
        have := hok
        rw [ladderOk_cons, hstep] at this
        exact this
      have hmin' : ∀ i, i < k →
          ladderOk oracle aspect filepath rest fs1 (c0 + 1) i = false := by
        intro i hi
        have := hmin (i + 1) (by omega)
        rw [ladderOk_cons, hstep] at this
        exact this
      have hjlen : k < rest.length := by
        simp only [List.length_cons] at hj
        omega
      rw [ih fs1 (c0 + 1) k hjlen hok' hmin']
      have hfs : ladderFS oracle aspect filepath (p :: rest) fs c0 (k + 2) =
          ladderFS oracle aspect filepath rest fs1 (c0 + 1) (k + 1) := by
        rw [ladderFS_cons, hstep]
      rw [← hfs]
      have : c0 + 1 + k + 1 = c0 + (k + 1) + 1 := by omega
      rw [this]

theorem retryGo_allNotOk (oracle : SynthOracle) (aspect filepath : String) :
    ∀ (ps : List String) (fs : FS) (c0 : Nat),
      (∀ j, j < ps.length → ladderOk oracle aspect filepath ps fs c0 j = false) →
      retryGo oracle aspect filepath ps fs c0 =
        (false, ladderFS oracle aspect filepath ps fs c0 ps.length,
          c0 + ps.length) := by
  intro ps
  induction ps with
  | nil => intro fs c0 h; rfl
  | cons p rest ih =>
    intro fs c0 h
    rcases hstep : synthStep oracle c0 p aspect filepath fs with ⟨rep, fs1⟩
    have hok0 : (rep && fileNonEmpty fs1 filepath) = false := by
      have := h 0 (Nat.succ_pos _)
      unfold ladderOk ladderReported at this
      rw [show ladderFS oracle aspect filepath (p :: rest) fs c0 0 = fs from rfl]
        at this
      rw [show ladderFS oracle aspect filepath (p :: rest) fs c0 1 =
        (synthStep oracle c0 p aspect filepath fs).2 from rfl] at this
      rw [show promptAt (p :: rest) 0 = p from rfl] at this
      rw [show c0 + 0 = c0 from rfl] at this
      rw [hstep] at this
      exact this
    have hrec : retryGo oracle aspect filepath (p :: rest) fs c0 =
        retryGo oracle aspect filepath rest fs1 (c0 + 1) := by
      show (match synthStep oracle c0 p aspect filepath fs with
        | (false, fs1) => retryGo oracle aspect filepath rest fs1 (c0 + 1)
        | (true, fs1) =>
          if fileNonEmpty fs1 filepath then (true, fs1, c0 + 1)
          else retryGo oracle aspect filepath rest fs1 (c0 + 1)) = _
      rw [hstep]
      cases rep with
      | false => rfl
      | true =>
        simp only [Bool.true_and] at hok0
        simp only [hok0, if_false, Bool.false_eq_true]
    rw [hrec]
    have h' : ∀ j, j < rest.length →
        ladderOk oracle aspect filepath rest fs1 (c0 + 1) j = false := by
      intro j hjl
      have := h (j + 1) (by simp only [List.length_cons]; omega)
      rw [ladderOk_cons, hstep] at this
      exact this
    rw [ih fs1 (c0 + 1) h']
    have hfs : ladderFS oracle aspect filepath (p :: rest) fs c0
        (rest.length + 1) =
        ladderFS oracle aspect filepath rest fs1 (c0 + 1) rest.length := by
      rw [ladderFS_cons, hstep]
    rw [← hfs]
    have : c0 + 1 + rest.length = c0 + (rest.length + 1) := by omega
    rw [this]
    rfl

theorem retryGo_oracleFail (oracle : SynthOracle) (aspect filepath : String) :
    ∀ (ps : List String) (fs : FS) (c0 : Nat),
      (∀ j, j < ps.length → oracle (c0 + j) (promptAt ps j) aspect = .failure) →
      retryGo oracle aspect filepath ps fs c0 = (false, fs, c0 + ps.length) := by
  intro ps
  induction ps with
  | nil => intro fs c0 h; rfl
  | cons p rest ih =>
    intro fs c0 h
    have h0 : oracle c0 p aspect = .failure := by
      have := h 0 (Nat.succ_pos _)
      rw [show promptAt (p :: rest) 0 = p from rfl] at this
      rw [show c0 + 0 = c0 from rfl] at this
      exact this
    have hstep : synthStep oracle c0 p aspect filepath fs = (false, fs) := by
      unfold synthStep
      rw [h0]
    have hrec : retryGo oracle aspect filepath (p :: rest) fs c0 =
        retryGo oracle aspect filepath rest fs (c0 + 1) := by
      show (match synthStep oracle c0 p aspect filepath fs with
        | (false, fs1) => retryGo oracle aspect filepath rest fs1 (c0 + 1)
        | (true, fs1) =>
          if fileNonEmpty fs1 filepath then (true, fs1, c0 + 1)
          else retryGo oracle aspect filepath rest fs1 (c0 + 1)) = _
      rw [hstep]
    rw [hrec]
    have h' : ∀ j, j < rest.length →
        oracle ((c0 + 1) + j) (promptAt rest j) aspect = .failure := by
      intro j hjl
      have := h (j + 1) (by simp only [List.length_cons]; omega)
      rw [show promptAt (p :: rest) (j + 1) = promptAt rest j from rfl] at this
      rw [show c0 + (j + 1) = (c0 + 1) + j from by omega] at this
      exact this
    rw [ih fs (c0 + 1) h']
    have : c0 + 1 + rest.length = c0 + (rest.length + 1) := by omega
    rw [this]
    rfl

theorem buildRetryPrompts_length (p : String) :
    (buildRetryPrompts p).length = 3 := rfl

/-- Claim C7: the retry ladder counts an attempt as successful only when
the capability reports success AND the target file exists non-empty
afterwards (`ladderOk`); it returns success at the first such attempt after
exactly that many capability calls; and when the capability fails on every
attempt it makes exactly 3 calls, leaves the filesystem untouched, and
reports overall failure.  A reported success with an empty or missing file
likewise forces the ladder onward, and after 3 not-ok attempts it reports
failure. -/
theorem c7_retry_ladder (oracle : SynthOracle)
    (prompt aspect filepath : String) (fs : FS) (c0 : Nat) :
    ((∀ j, j < 3 →
        oracle (c0 + j) (promptAt (buildRetryPrompts prompt) j) aspect =
          .failure) →
      genWithRetries oracle prompt aspect filepath fs c0 = (false, fs, c0 + 3)) ∧
    (∀ j, j < 3 →
      ladderOk oracle aspect filepath (buildRetryPrompts prompt) fs c0 j =
        true →
      (∀ i, i < j →
        ladderOk oracle aspect filepath (buildRetryPrompts prompt) fs c0 i =
          false) →
      genWithRetries oracle prompt aspect filepath fs c0 =
        (true,
          ladderFS oracle aspect filepath (buildRetryPrompts prompt) fs c0
            (j + 1),
          c0 + j + 1)) ∧
    ((∀ j, j < 3 →
        ladderOk oracle aspect filepath (buildRetryPrompts prompt) fs c0 j =
          false) →
      genWithRetries oracle prompt aspect filepath fs c0 =
        (false,
          ladderFS oracle aspect filepath (buildRetryPrompts prompt) fs c0 3,
          c0 + 3)) := by
  refine ⟨?_, ?_, ?_⟩
  · intro h
    unfold genWithRetries
    rw [retryGo_oracleFail oracle aspect filepath (buildRetryPrompts prompt)
      fs c0 (by rw [buildRetryPrompts_length]; exact h),
      buildRetryPrompts_length]
  · intro j hj hok hmin
    unfold genWithRetries
    rw [retryGo_firstOk oracle aspect filepath (buildRetryPrompts prompt)
      fs c0 j (by rw [buildRetryPrompts_length]; exact hj) hok hmin]
  · intro h
    unfold genWithRetries
    rw [retryGo_allNotOk oracle aspect filepath (buildRetryPrompts prompt)
      fs c0 (by rw [buildRetryPrompts_length]; exact h),
      buildRetryPrompts_length]

/-- Claim C7 witness: an always-failing capability forces exactly 3 calls,
leaves the filesystem unchanged, and the ladder reports failure. -/
theorem c7_witness :
    genWithRetries (fun _ _ _ => SynthOutcome.failure) "p" "1:1"
      "out/slide_1.png" ⟨[], []⟩ 0 = (false, ⟨[], []⟩, 3) :=
  (c7_retry_ladder (fun _ _ _ => SynthOutcome.failure) "p" "1:1"
    "out/slide_1.png" ⟨[], []⟩ 0).1 (fun j hj => rfl)

/-! ## Decimal rendering is injective -/

theorem digitsVal_append_single (l : List Nat) (d : Nat) :
    digitsVal (l ++ [d]) = digitsVal l * 10 + d := by
  simp [digitsVal, List.foldl_append]

theorem natDigitsAux_val :
    ∀ fuel n, n ≤ fuel → digitsVal (natDigitsAux fuel n) = n := by
  intro fuel
  induction fuel with
  | zero =>
    intro n hn
    have : n = 0 := by omega
    subst this
    rfl
  | succ fuel ih =>
    intro n hn
    show digitsVal (if n < 10 then [n] else
      natDigitsAux fuel (n / 10) ++ [n % 10]) = n
    by_cases h10 : n < 10
    · simp [h10, digitsVal]
    · rw [if_neg h10, digitsVal_append_single, ih (n / 10) (by omega)]
      omega

theorem natDigitsAux_lt :
    ∀ fuel n, n ≤ fuel → ∀ d ∈ natDigitsAux fuel n, d < 10 := by
  intro fuel
  induction fuel with
  | zero =>
    intro n hn d hd
    have : n = 0 := by omega
    subst this
    simp only [natDigitsAux, List.mem_singleton] at hd
    omega
  | succ fuel ih =>
    intro n hn d hd
    rw [show natDigitsAux (fuel + 1) n = (if n < 10 then [n] else
      natDigitsAux fuel (n / 10) ++ [n % 10]) from rfl] at hd
    by_cases h10 : n < 10
    · rw [if_pos h10] at hd
      simp only [List.mem_singleton] at hd
      omega
    · rw [if_neg h10] at hd
      rcases List.mem_append.mp hd with hd' | hd'
      · exact ih (n / 10) (by omega) d hd'
      · simp only [List.mem_singleton] at hd'
        subst hd'
        omega

theorem digitChar_inj_lt :
    ∀ d1, d1 < 10 → ∀ d2, d2 < 10 →
      Nat.digitChar d1 = Nat.digitChar d2 → d1 = d2 := by
  decide

theorem map_digitChar_inj :
    ∀ (l1 l2 : List Nat), (∀ d ∈ l1, d < 10) → (∀ d ∈ l2, d < 10) →
      l1.map Nat.digitChar = l2.map Nat.digitChar → l1 = l2 := by
  intro l1
  induction l1 with
  | nil =>
    intro l2 _ _ h
    cases l2 with
    | nil => rfl
    | cons d t => simp at h
  | cons d t ih =>
    intro l2 h1 h2 h
    cases l2 with
    | nil => simp at h
    | cons d' t' =>
      simp only [List.map_cons, List.cons.injEq] at h
      have hd := digitChar_inj_lt d (h1 d (List.mem_cons_self _ _)) d'
        (h2 d' (List.mem_cons_self _ _)) h.1
      rw [hd, ih t' (fun x hx => h1 x (List.mem_cons_of_mem _ hx))
        (fun x hx => h2 x (List.mem_cons_of_mem _ hx)) h.2]

theorem natDecimal_inj {m n : Nat} (h : natDecimal m = natDecimal n) :
    m = n := by
  unfold natDecimal at h
  have hd : (natDigits m).map Nat.digitChar = (natDigits n).map Nat.digitChar :=
    congrArg String.data h
  have hdig : natDigits m = natDigits n :=
    map_digitChar_inj _ _ (natDigitsAux_lt m m le_rfl)
      (natDigitsAux_lt n n le_rfl) hd
  have hm := natDigitsAux_val m m le_rfl
  have hn := natDigitsAux_val n n le_rfl
  rw [show natDigits m = natDigitsAux m m from rfl] at hdig
  rw [show natDigits n = natDigitsAux n n from rfl] at hdig
  rw [hdig] at hm
  exact hm.symm.trans hn

theorem slidePath_inj {dir : String} {i j : Nat}
    (h : slidePath dir i = slidePath dir j) : i = j := by
  unfold slidePath at h
  have hd := congrArg String.data h
  simp only [String.data_append] at hd
  have h1 := List.append_cancel_right hd
  have h2 := List.append_cancel_left h1
  have h3 : natDecimal (i + 1) = natDecimal (j + 1) := by
    apply congrArg String.mk h2
  have := natDecimal_inj h3
  omega

/-! ## Filesystem frame lemmas for the retry ladder -/

theorem fileNonEmpty_iff {fs : FS} {p : String} :
    fileNonEmpty fs p = true ↔ 0 < (fsGet fs p).getD 0 := by
  unfold fileNonEmpty
  cases h : fsGet fs p <;> simp

theorem synthStep_fget_ne (oracle : SynthOracle) (c : Nat)
    (p aspect filepath : String) (fs : FS) {q : String} (hq : q ≠ filepath) :
    fsGet (synthStep oracle c p aspect filepath fs).2 q = fsGet fs q := by
  unfold synthStep
  cases oracle c p aspect with
  | failure => rfl
  | success w =>
    cases w with
    | none => rfl
    | some n => exact alGet_alSet_ne _ _ hq

theorem synthStep_dirs (oracle : SynthOracle) (c : Nat)
    (p aspect filepath : String) (fs : FS) :
    (synthStep oracle c p aspect filepath fs).2.dirs = fs.dirs := by
  unfold synthStep
  cases oracle c p aspect with
  | failure => rfl
  | success w => cases w <;> rfl

theorem retryGo_fget_ne (oracle : SynthOracle) (aspect filepath : String) :
    ∀ (ps : List String) (fs : FS) (c : Nat) {q : String}, q ≠ filepath →
      fsGet (retryGo oracle aspect filepath ps fs c).2.1 q = fsGet fs q := by
  intro ps
  induction ps with
  | nil => intro fs c q hq; rfl
  | cons p rest ih =>
    intro fs c q hq
    rcases hstep : synthStep oracle c p aspect filepath fs with ⟨rep, fs1⟩
    have hfs1 : fsGet fs1 q = fsGet fs q := by
      have := synthStep_fget_ne oracle c p aspect filepath fs hq
      rw [hstep] at this
      exact this
    show fsGet (match synthStep oracle c p aspect filepath fs with
      | (false, fs1) => retryGo oracle aspect filepath rest fs1 (c + 1)
      | (true, fs1) =>
        if fileNonEmpty fs1 filepath then (true, fs1, c + 1)
        else retryGo oracle aspect filepath rest fs1 (c + 1)).2.1 q = _
    rw [hstep]
    cases rep with
    | false => rw [ih fs1 (c + 1) hq, hfs1]
    | true =>
      by_cases hfe : fileNonEmpty fs1 filepath
      · simp only [hfe, if_true]
        exact hfs1
      · simp only [hfe, if_false, Bool.false_eq_true]
        rw [ih fs1 (c + 1) hq, hfs1]

theorem retryGo_dirs (oracle : SynthOracle) (aspect filepath : String) :
    ∀ (ps : List String) (fs : FS) (c : Nat),
      (retryGo oracle aspect filepath ps fs c).2.1.dirs = fs.dirs := by
  intro ps
  induction ps with
  | nil => intro fs c; rfl
  | cons p rest ih =>
    intro fs c
    rcases hstep : synthStep oracle c p aspect filepath fs with ⟨rep, fs1⟩
    have hfs1 : fs1.dirs = fs.dirs := by
      have := synthStep_dirs oracle c p aspect filepath fs
      rw [hstep] at this
      exact this
    show (match synthStep oracle c p aspect filepath fs with
      | (false, fs1) => retryGo oracle aspect filepath rest fs1 (c + 1)
      | (true, fs1) =>
        if fileNonEmpty fs1 filepath then (true, fs1, c + 1)
        else retryGo oracle aspect filepath rest fs1 (c + 1)).2.1.dirs = _
    rw [hstep]
    cases rep with
    | false => rw [ih fs1 (c + 1), hfs1]
    | true =>
      by_cases hfe : fileNonEmpty fs1 filepath
      · simp only [hfe, if_true]
        exact hfs1
      · simp only [hfe, if_false, Bool.false_eq_true]
        rw [ih fs1 (c + 1), hfs1]

theorem retryGo_true_nonzero (oracle : SynthOracle) (aspect filepath : String) :
    ∀ (ps : List String) (fs : FS) (c : Nat),
      (retryGo oracle aspect filepath ps fs c).1 = true →
      0 < (fsGet (retryGo oracle aspect filepath ps fs c).2.1 filepath).getD 0 := by
  intro ps
  induction ps with
  | nil => intro fs c h; simp [retryGo] at h
  | cons p rest ih =>
    intro fs c h
    rcases hstep : synthStep oracle c p aspect filepath fs with ⟨rep, fs1⟩
    have hm : retryGo oracle aspect filepath (p :: rest) fs c =
        (match synthStep oracle c p aspect filepath fs with
        | (false, fs1) => retryGo oracle aspect filepath rest fs1 (c + 1)
        | (true, fs1) =>
          if fileNonEmpty fs1 filepath then (true, fs1, c + 1)
          else retryGo oracle aspect filepath rest fs1 (c + 1)) := rfl
    rw [hm, hstep] at h ⊢
    cases rep with
    | false => exact ih fs1 (c + 1) h
    | true =>
      by_cases hfe : fileNonEmpty fs1 filepath
      · simp only [hfe, if_true]
        exact fileNonEmpty_iff.mp hfe
      · simp only [hfe, if_false, Bool.false_eq_true] at h ⊢
        exact ih fs1 (c + 1) h

theorem genWithRetries_fget_ne (oracle : SynthOracle)
    (prompt aspect filepath : String) (fs : FS) (c : Nat) {q : String}
    (hq : q ≠ filepath) :
    fsGet (genWithRetries oracle prompt aspect filepath fs c).2.1 q =
      fsGet fs q :=
  retryGo_fget_ne oracle aspect filepath _ fs c hq

theorem genWithRetries_dirs (oracle : SynthOracle)
    (prompt aspect filepath : String) (fs : FS) (c : Nat) :
    (genWithRetries oracle prompt aspect filepath fs c).2.1.dirs = fs.dirs :=
  retryGo_dirs oracle aspect filepath _ fs c

theorem genWithRetries_true_nonzero (oracle : SynthOracle)
    (prompt aspect filepath : String) (fs : FS) (c : Nat)
    (h : (genWithRetries oracle prompt aspect filepath fs c).1 = true) :
    0 < (fsGet (genWithRetries oracle prompt aspect filepath fs c).2.1
      filepath).getD 0 :=
  retryGo_true_nonzero oracle aspect filepath _ fs c h

theorem saveRendered_self (env : EnvModel) (r : Rendered) (filepath : String)
    (fs : FS) :
    fsGet (saveRendered env r filepath fs) filepath =
      some (8 + env.pngPayload r) :=
  alGet_alSet_self _ _ _

theorem saveRendered_ne (env : EnvModel) (r : Rendered) (filepath : String)
    (fs : FS) {q : String} (hq : q ≠ filepath) :
    fsGet (saveRendered env r filepath fs) q = fsGet fs q :=
  alGet_alSet_ne _ _ hq

theorem saveRendered_dirs (env : EnvModel) (r : Rendered) (filepath : String)
    (fs : FS) : (saveRendered env r filepath fs).dirs = fs.dirs := rfl

/-! ## The slide loop of the image engine -/

theorem imagesGo_spec (env : EnvModel) (oracle : SynthOracle) (dir : String) :
    ∀ (slides : List PSlide) (i0 : Nat) (fs : FS) (c0 : Nat)
      {res : List (Nat × ImgResult)} {fs' : FS} {c' : Nat},
      imagesGo env oracle dir slides i0 fs c0 = (res, fs', c') →
      res.map Prod.fst = List.range' i0 slides.length ∧
      (∀ p r, (p, r) ∈ res → r.path = slidePath dir p ∧
        (r.type = "imagen" ∨ r.type = "fallback_shape")) ∧
      (∀ q, (∀ k, k < slides.length → q ≠ slidePath dir (i0 + k)) →
        fsGet fs' q = fsGet fs q) ∧
      (∀ k, k < slides.length →
        0 < (fsGet fs' (slidePath dir (i0 + k))).getD 0) ∧
      fs'.dirs = fs.dirs := by
  intro slides
  induction slides with
  | nil =>
    intro i0 fs c0 res fs' c' h
    injection h with h1 h2
    injection h2 with h2 h3
    subst h1
    subst h2
    exact ⟨rfl, by simp, fun q _ => rfl, by simp, rfl⟩
  | cons s rest ih =>
    intro i0 fs c0 res fs' c' h
    rcases hgen : genWithRetries oracle s.image_prompt (slideSize s.layout).2.2
      (slidePath dir i0) fs c0 with ⟨ok, fs1, c1⟩
    unfold imagesGo at h
    rw [hgen] at h
    cases ok with
    | true =>
      simp only [] at h
      rcases hrec : imagesGo env oracle dir rest (i0 + 1) fs1 c1
        with ⟨res1, fs2, c2⟩
      rw [hrec] at h
      injection h with h1 h2
      injection h2 with h2 h3
      subst h1
      subst h2
      obtain ⟨ih1, ih2, ih3, ih4, ih5⟩ := ih (i0 + 1) fs1 c1 hrec
      refine ⟨?_, ?_, ?_, ?_, ?_⟩
      · simp only [List.map_cons, ih1, List.length_cons]
        rfl
      · intro p r hpr
        rcases List.mem_cons.mp hpr with heq | hmem
        · injection heq with hp hr
          subst hp
          subst hr
          exact ⟨rfl, Or.inl rfl⟩
        · exact ih2 p r hmem
      · intro q hq
        have hq0 : q ≠ slidePath dir i0 := by
          have := hq 0 (by simp)
          rwa [Nat.add_zero] at this
        have hqrest : ∀ k, k < rest.length →
            q ≠ slidePath dir ((i0 + 1) + k) := by
          intro k hk
          have := hq (k + 1) (by simp only [List.length_cons]; omega)
          rwa [show i0 + (k + 1) = (i0 + 1) + k from by omega] at this
        rw [ih3 q hqrest]
        have := genWithRetries_fget_ne oracle s.image_prompt
          (slideSize s.layout).2.2 (slidePath dir i0) fs c0 hq0
        rw [hgen] at this
        exact this
      · intro k hk
        cases k with
        | zero =>
          rw [Nat.add_zero]
          have hfp_ne : ∀ k', k' < rest.length →
              slidePath dir i0 ≠ slidePath dir ((i0 + 1) + k') := by
            intro k' _ hcontra
            have := slidePath_inj hcontra
            omega
          rw [ih3 _ hfp_ne]
          have := genWithRetries_true_nonzero oracle s.image_prompt
            (slideSize s.layout).2.2 (slidePath dir i0) fs c0 (by rw [hgen])
          rw [hgen] at this
          exact this
        | succ k' =>
          have := ih4 k' (by simp only [List.length_cons] at hk; omega)
          rwa [show (i0 + 1) + k' = i0 + (k' + 1) from by omega] at this
      · rw [ih5]
        have := genWithRetries_dirs oracle s.image_prompt
          (slideSize s.layout).2.2 (slidePath dir i0) fs c0
        rw [hgen] at this
        exact this
    | false =>
      simp only [] at h
      rcases hrec : imagesGo env oracle dir rest (i0 + 1)
        (saveRendered env
          (generateShapeFallback env s (slideSize s.layout).1
            (slideSize s.layout).2.1)
          (slidePath dir i0) fs1) c1 with ⟨res1, fs2, c2⟩
      rw [hrec] at h
      injection h with h1 h2
      injection h2 with h2 h3
      subst h1
      subst h2
      obtain ⟨ih1, ih2, ih3, ih4, ih5⟩ := ih (i0 + 1) _ c1 hrec
      refine ⟨?_, ?_, ?_, ?_, ?_⟩
      · simp only [List.map_cons, ih1, List.length_cons]
        rfl
      · intro p r hpr
        rcases List.mem_cons.mp hpr with heq | hmem
        · injection heq with hp hr
          subst hp
          subst hr
          exact ⟨rfl, Or.inr rfl⟩
        · exact ih2 p r hmem
      · intro q hq
        have hq0 : q ≠ slidePath dir i0 := by
          have := hq 0 (by simp)
          rwa [Nat.add_zero] at this
        have hqrest : ∀ k, k < rest.length →
            q ≠ slidePath dir ((i0 + 1) + k) := by
          intro k hk
          have := hq (k + 1) (by simp only [List.length_cons]; omega)
          rwa [show i0 + (k + 1) = (i0 + 1) + k from by omega] at this
        rw [ih3 q hqrest, saveRendered_ne _ _ _ _ hq0]
        have := genWithRetries_fget_ne oracle s.image_prompt
          (slideSize s.layout).2.2 (slidePath dir i0) fs c0 hq0
        rw [hgen] at this
        exact this
      · intro k hk
        cases k with
        | zero =>
          rw [Nat.add_zero]
          have hfp_ne : ∀ k', k' < rest.length →
              slidePath dir i0 ≠ slidePath dir ((i0 + 1) + k') := by
            intro k' _ hcontra
            have := slidePath_inj hcontra
            omega
          rw [ih3 _ hfp_ne, saveRendered_self]
          simp
        | succ k' =>
          have := ih4 k' (by simp only [List.length_cons] at hk; omega)
          rwa [show (i0 + 1) + k' = i0 + (k' + 1) from by omega] at this
      · rw [ih5, saveRendered_dirs]
        have := genWithRetries_dirs oracle s.image_prompt
          (slideSize s.layout).2.2 (slidePath dir i0) fs c0
        rw [hgen] at this
        exact this

theorem pymakedirs_ok (dir : String) (fs : FS) :
    ∃ fs1, pymakedirs dir true fs = .ok fs1 ∧ fs1.dirs.contains dir = true ∧
      fs1.files = fs.files := by
  by_cases hc : fs.dirs.contains dir
  · refine ⟨fs, ?_, hc, rfl⟩
    unfold pymakedirs
    rw [if_pos hc, if_pos rfl]
  · refine ⟨⟨dir :: fs.dirs, fs.files⟩, ?_, by simp, rfl⟩
    unfold pymakedirs
    rw [if_neg hc]

theorem generateSlideImages_spec (env : EnvModel) (oracle : SynthOracle)
    (slides : List PSlide) (dir : String) (fs : FS) (c0 : Nat) :
    ∃ res fs' c',
      generateSlideImages env oracle slides dir fs c0 = .ok (res, fs', c') ∧
      res.map Prod.fst = List.range slides.length ∧
      (∀ p r, (p, r) ∈ res → r.path = slidePath dir p ∧
        (r.type = "imagen" ∨ r.type = "fallback_shape")) ∧
      (∀ k, k < slides.length →
        0 < (fsGet fs' (slidePath dir k)).getD 0) ∧
      fs'.dirs.contains dir = true := by
  obtain ⟨fs1, hmk1, hdir, hfiles⟩ := pymakedirs_ok dir fs
  rcases hgo : imagesGo env oracle dir slides 0 fs1 c0 with ⟨res, fs', c'⟩
  obtain ⟨h1, h2, h3, h4, h5⟩ := imagesGo_spec env oracle dir slides 0 fs1 c0 hgo
  refine ⟨res, fs', c', ?_, ?_, h2, ?_, ?_⟩
  · unfold generateSlideImages
    rw [hmk1]
    exact congrArg Except.ok hgo
  · rw [h1, List.range_eq_range']
  · intro k hk
    have := h4 k hk
    rwa [Nat.zero_add] at this
  · rw [h5]
    exact hdir

/-! ## Claims about the image engine (C1, C10) -/

/-- Claim C1: for every slide list with N ≥ 1 entries (and any synthesis
capability and starting filesystem), `generate_slide_images` returns a
mapping whose keys are exactly 0..N-1, whose entry for index `i` references
`slide_<i+1>.png` in the output directory with origin `imagen` or
`fallback_shape`, and every such file has been written non-empty. -/
theorem c1_totality (env : EnvModel) (oracle : SynthOracle)
    (slides : List PSlide) (dir : String) (fs : FS) (c0 : Nat)
    (hne : slides ≠ []) :
    ∃ res fs' c',
      generateSlideImages env oracle slides dir fs c0 = .ok (res, fs', c') ∧
      res.map Prod.fst = List.range slides.length ∧
      (∀ p r, (p, r) ∈ res →
        r.path = dir ++ "/slide_" ++ natDecimal (p + 1) ++ ".png" ∧
        (r.type = "imagen" ∨ r.type = "fallback_shape")) ∧
      (∀ k, k < slides.length →
        0 < (fsGet fs'
          (dir ++ "/slide_" ++ natDecimal (k + 1) ++ ".png")).getD 0) := by
  obtain ⟨res, fs', c', ha, hb, hc, hd, he⟩ :=
    generateSlideImages_spec env oracle slides dir fs c0
  exact ⟨res, fs', c', ha, hb, hc, hd⟩

/-- Claim C1 witness: a concrete one-slide run with an unavailable image
capability. -/
theorem c1_witness :
    ∃ res fs' c',
      generateSlideImages envZero constFailOracle
        [⟨"t", "", "", [], "p", "TITLE"⟩] "assets" ⟨[], []⟩ 0 =
        .ok (res, fs', c') ∧
      res.map Prod.fst =
        List.range ([(⟨"t", "", "", [], "p", "TITLE"⟩ : PSlide)]).length ∧
      (∀ p r, (p, r) ∈ res →
        r.path = "assets" ++ "/slide_" ++ natDecimal (p + 1) ++ ".png" ∧
        (r.type = "imagen" ∨ r.type = "fallback_shape")) ∧
      (∀ k, k < ([(⟨"t", "", "", [], "p", "TITLE"⟩ : PSlide)]).length →
        0 < (fsGet fs'
          ("assets" ++ "/slide_" ++ natDecimal (k + 1) ++ ".png")).getD 0) :=
  c1_totality envZero constFailOracle [⟨"t", "", "", [], "p", "TITLE"⟩]
    "assets" ⟨[], []⟩ 0 (by simp)

/-- Claim C10: `generate_slide_images` creates the output directory itself
at the start of the run (`os.makedirs(..., exist_ok=True)`); an
already-existing directory is not an error (the run returns normally for
every starting filesystem, including one where the directory exists), and
every slide's image file still gets written. -/
theorem c10_creates_output_dir (env : EnvModel) (oracle : SynthOracle)
    (slides : List PSlide) (dir : String) (fs : FS) (c0 : Nat) :
    ∃ res fs' c',
      generateSlideImages env oracle slides dir fs c0 = .ok (res, fs', c') ∧
      fs'.dirs.contains dir = true ∧
      (∀ k, k < slides.length →
        0 < (fsGet fs' (slidePath dir k)).getD 0) := by
  obtain ⟨res, fs', c', ha, hb, hc, hd, he⟩ :=
    generateSlideImages_spec env oracle slides dir fs c0
  exact ⟨res, fs', c', ha, he, hd⟩

/-! ## Claims about the end-to-end fallback scenario (C8) -/

theorem genWithRetries_constFail (prompt aspect filepath : String) (fs : FS)
    (c : Nat) :
    genWithRetries constFailOracle prompt aspect filepath fs c =
      (false, fs, c + 3) := by
  unfold genWithRetries
  rw [retryGo_oracleFail constFailOracle aspect filepath _ fs c
    (fun j hj => rfl), buildRetryPrompts_length]

theorem imagesGo_constFail (env : EnvModel) (dir : String) :
    ∀ (slides : List PSlide) (i0 : Nat) (fs : FS) (c0 : Nat),
      (imagesGo env constFailOracle dir slides i0 fs c0).1.map
          (fun pr => (pr.1, pr.2.type)) =
        (List.range' i0 slides.length).map (fun i => (i, "fallback_shape")) := by
  intro slides
  induction slides with
  | nil => intro i0 fs c0; rfl
  | cons s rest ih =>
    intro i0 fs c0
    unfold imagesGo
    rw [genWithRetries_constFail]
    simp only [List.length_cons, List.map_cons]
    rw [show List.range' i0 (rest.length + 1) =
      i0 :: List.range' (i0 + 1) rest.length from rfl]
    simp only [List.map_cons, List.cons.injEq]
    exact ⟨trivial, ih (i0 + 1) _ _⟩

/-- Claim C8 counterexample: in the fallback deck, slide 4 (the outcome
slide) has four bullets, so the procedural renderer routes it through the
card branch — the ≥3-bullets check has priority — not through the
bar-chart branch the claim names. -/
theorem c8_counterexample :
    fallbackPSlides.map shapeRoute =
      [.flow, .card, .card, .card] ∧
    (fallbackPSlides.map shapeRoute).get? 3 ≠ some FallbackRoute.chart := by
  refine ⟨by decide, ?_⟩
  intro h
  rw [show fallbackPSlides.map shapeRoute =
    [FallbackRoute.flow, .card, .card, .card] from by decide] at h
  simp at h

/-- Claim C8 (amended): with the planning capability unavailable the deck
is the 4-slide fallback deck (cover, current-challenges, proposed-solution,
expected-outcome); with the image capability also unavailable all 4 visuals
have procedural-fallback origin; slide 1 (no bullets, no keyword) renders
via the generic flow-diagram branch, while slide 4 renders via the card
branch, because its four bullets satisfy the ≥3-bullets check that
precedes the outcome-keyword check in the renderer's priority order. -/
theorem c8_fallback_scenario :
    fallbackPSlides.map PSlide.title =
      ["提案資料", "現状の課題", "解決策", "期待効果"] ∧
    fallbackPSlides.length = 4 ∧
    (∀ env dir fs c0, ∃ res fs' c',
      generateSlideImages env constFailOracle fallbackPSlides dir fs c0 =
        .ok (res, fs', c') ∧
      res.map (fun pr => (pr.1, pr.2.type)) =
        [(0, "fallback_shape"), (1, "fallback_shape"),
         (2, "fallback_shape"), (3, "fallback_shape")]) ∧
    (fallbackPSlides.map shapeRoute).get? 0 = some .flow ∧
    (fallbackPSlides.map shapeRoute).get? 3 = some .card ∧
    3 ≤ ((fallbackPSlides.map PSlide.bullets).getD 3 []).length := by
  refine ⟨by decide, by decide, ?_, by decide, by decide, by decide⟩
  intro env dir fs c0
  obtain ⟨fs1, hmk1, hdir, hfiles⟩ := pymakedirs_ok dir fs
  rcases hgo : imagesGo env constFailOracle dir fallbackPSlides 0 fs1 c0
    with ⟨res, fs', c'⟩
  refine ⟨res, fs', c', ?_, ?_⟩
  · unfold generateSlideImages
    rw [hmk1]
    exact congrArg Except.ok hgo
  · have := imagesGo_constFail env dir fallbackPSlides 0 fs1 c0
    rw [hgo] at this
    simp only at this
    rw [this]
    decide

/-! ## Claim about renderer determinism (C9) -/

/-- Claim C9: the procedural fallback renderer is deterministic — it is a
pure function of the slide's bullets and title (plus the target dimensions
and the fixed ambient environment): two slides agreeing on bullets and
title produce the same routing branch and the identical sequence of drawing
primitives, coordinates and colors included. -/
theorem c9_renderer_deterministic (env : EnvModel) (s1 s2 : PSlide)
    (w h : Nat) (hb : s1.bullets = s2.bullets) (ht : s1.title = s2.title) :
    shapeRoute s1 = shapeRoute s2 ∧
    generateShapeFallback env s1 w h = generateShapeFallback env s2 w h := by
  have hr : shapeRoute s1 = shapeRoute s2 := by
    unfold shapeRoute
    rw [hb, ht]
  refine ⟨hr, ?_⟩
  unfold generateShapeFallback
  rw [hr, hb]

/-- Claim C9 witness: two slides differing in everything except bullets and
title render identically. -/
theorem c9_witness :
    shapeRoute ⟨"t", "m1", "b1", [], "p1", "TITLE"⟩ =
      shapeRoute ⟨"t", "m2", "b2", [], "p2", "IMAGE_FULL_TEXT_BOTTOM"⟩ ∧
    generateShapeFallback envZero ⟨"t", "m1", "b1", [], "p1", "TITLE"⟩ 64 64 =
      generateShapeFallback envZero
        ⟨"t", "m2", "b2", [], "p2", "IMAGE_FULL_TEXT_BOTTOM"⟩ 64 64 :=
  c9_renderer_deterministic envZero _ _ 64 64 rfl rfl

end SlideGen
